import Mathlib

/-!
odil / dcmtkpp : C-FIND SCU receive loop, example FindGenerator, DataSet ordering,
Python iterator over strings

Shallow embedding of

* `src/odil/DataSet.h` (class `DataSet`, an ordered `std::map<Tag, Element>`),
* `src/odil/FindSCU.cpp` (`FindSCU::find`, `FindSCU::_find`),
* `examples/genericscp.cpp` (class `FindGenerator`),
* `wrappers/python/Value.cpp` (the Python iterator over `Value::Strings`),

followed by the properties established about them.
-/

namespace odil

/-! ## Data model -/

/-- Modelled from the spec: `Tag.h` is not among the sources. A tag is a pair
(group, element) of 16-bit values. -/
structure Tag where
  group : Nat
  element : Nat
deriving DecidableEq, Repr

/-- Modelled from the spec: tags are "ordered lexicographically by (group, element)"
(the `operator<` of `Tag`, which is the key comparison of the element map). -/
instance : LT Tag :=
  ⟨fun a b => a.group < b.group ∨ (a.group = b.group ∧ a.element < b.element)⟩

instance (a b : Tag) : Decidable (a < b) :=
  inferInstanceAs
    (Decidable (a.group < b.group ∨ (a.group = b.group ∧ a.element < b.element)))

/-- Modelled from the spec: `VR.h` is not among the sources. The closed enumeration of
value representations, plus the `UNKNOWN` default used by `DataSet::add`. -/
inductive VR where
  | UNKNOWN
  | AE | AS | AT | CS | DA | DS | DT | FL | FD | IS | LO | LT | OB | OD | OF | OL | OW
  | PN | SH | SL | SQ | SS | ST | TM | UC | UI | UL | UN | UR | US | UT
deriving DecidableEq, Repr

/-- Modelled from the spec: `Element.h` is not among the sources. An element is a pair
(value, VR). -/
structure Element (Value : Type) where
  value : Value
  vr : VR

/-- Class `DataSet` of `DataSet.h`: the private members `_elements`
(`std::map<Tag, Element>`, held as the sequence of its entries in iteration order) and
`_transfer_syntax`. -/
structure DataSet (Element : Type) where
  _elements : List (Tag × Element)
  _transfer_syntax : String

/-- Modelled from the spec: `Value.h` is not among the sources. A tagged union with
exactly one active alternative; reals are kept as their 64-bit patterns, nested data
sets are the items of a sequence. -/
inductive Value where
  | Integers (v : List Int)
  | Reals (v : List Nat)
  | Strings (v : List String)
  | DataSets (v : List (DataSet (Element Value)))
  | Binary (v : List (List Nat))

/-- Modelled from the spec: `Value::clear()`, which empties the active alternative. -/
def Value.clear : Value → Value
  | .Integers _ => .Integers []
  | .Reals _ => .Reals []
  | .Strings _ => .Strings []
  | .DataSets _ => .DataSets []
  | .Binary _ => .Binary []

/-- Modelled from the spec: `Element::clear()`. -/
def Element.clear (e : Element Value) : Element Value :=
  { e with value := e.value.clear }

/-! ### `std::map<Tag, Element>` -/

namespace ElementMap

/-- Semantics of `std::map::operator[]`-assignment / `insert_or_assign`: the entry is
placed at its position in key order, an entry with an equal key is overwritten. -/
def assign {E : Type} (tag : Tag) (e : E) : List (Tag × E) → List (Tag × E)
  | [] => [(tag, e)]
  | (t, x) :: rest =>
    if tag < t then (tag, e) :: (t, x) :: rest
    else if t < tag then (t, x) :: assign tag e rest
    else (tag, e) :: rest

/-- Semantics of `std::map::find`. -/
def find {E : Type} (tag : Tag) : List (Tag × E) → Option E
  | [] => none
  | (t, x) :: rest => if t = tag then some x else find tag rest

/-- Semantics of `std::map::erase(key)`. -/
def erase {E : Type} (tag : Tag) : List (Tag × E) → List (Tag × E)
  | [] => []
  | (t, x) :: rest => if t = tag then erase tag rest else (t, x) :: erase tag rest

/-- Write access through the reference returned by `std::map::find`: the mapped value of
`tag` is replaced by `f` of it, keys are untouched. -/
def modify {E : Type} (tag : Tag) (f : E → E) : List (Tag × E) → List (Tag × E)
  | [] => []
  | (t, x) :: rest => if t = tag then (t, f x) :: rest else (t, x) :: modify tag f rest

/-- Keys of an element map, in iteration order. -/
def keys {E : Type} (m : List (Tag × E)) : List Tag := m.map Prod.fst

/-- The map invariant: keys strictly ascending in iteration order. -/
def Ordered {E : Type} (m : List (Tag × E)) : Prop :=
  (keys m).Pairwise (· < ·)

end ElementMap

/-- The exception type `odil::Exception`, with its message. -/
structure Exception where
  what : String
deriving DecidableEq, Repr

namespace DataSet

/-! ### Public operations of `DataSet`

Modelled from the spec: `DataSet.cpp` is not among the sources; the operations declared in
`DataSet.h` act on the element map as the spec describes ("add, remove, has, clear,
`[tag]`, typed accessors"; absent tags raise an `Exception`). A failing operation leaves
the data set as it was. -/

/-- Modelled from the spec: `DataSet(transfer_syntax="")`, "create an empty data set". -/
def create {E : Type} ( transfer_syntax : String) : DataSet E :=
  ⟨[], transfer_syntax⟩

/-- Modelled from the spec: `add(tag, element)`, "add an element to the dataset". -/
def add {E : Type} (d : DataSet E) (tag : Tag) (element : E) : DataSet E :=
  { d with _elements := ElementMap.assign tag element d._elements }

/-- Modelled from the spec: `has(tag)`. -/
def has {E : Type} (d : DataSet E) (tag : Tag) : Bool :=
  (ElementMap.find tag d._elements).isSome

/-- Modelled from the spec: `remove(tag)`; "if the element is not in the data set, a
odil::Exception is raised". -/
def remove {E : Type} (d : DataSet E) (tag : Tag) : Except Exception Unit × DataSet E :=
  if d.has tag then (.ok (), { d with _elements := ElementMap.erase tag d._elements })
  else (.error ⟨"No such element"⟩, d)

/-- Modelled from the spec: `empty()`. -/
def empty {E : Type} (d : DataSet E) : Bool := d._elements.isEmpty

/-- Modelled from the spec: `size()`. -/
def size {E : Type} (d : DataSet E) : Nat := d._elements.length

/-- Modelled from the spec: `operator[](tag) const`. -/
def get {E : Type} (d : DataSet E) (tag : Tag) : Except Exception E :=
  match ElementMap.find tag d._elements with
  | some e => .ok e
  | none => .error ⟨"No such element"⟩

/-- Modelled from the spec: write access through the reference returned by the non-const
`operator[](tag)` and the non-const `as_int / as_real / as_string / as_data_set /
as_binary (tag)`: the element is replaced by `f` of it. -/
def update {E : Type} (d : DataSet E) (tag : Tag) (f : E → E) : Except Exception Unit × DataSet E :=
  if d.has tag then (.ok (), { d with _elements := ElementMap.modify tag f d._elements })
  else (.error ⟨"No such element"⟩, d)

/-- Modelled from the spec: `clear()`, after which `empty()` is true. -/
def clear {E : Type} (d : DataSet E) : DataSet E :=
  { d with _elements := [] }

/-- Modelled from the spec: `clear(tag)`, which clears the element. -/
def clear_tag (d : DataSet (Element Value)) (tag : Tag) :
    Except Exception Unit × DataSet (Element Value) :=
  d.update tag Element.clear

/-- Modelled from the spec: `set_transfer_syntax`. -/
def set_transfer_syntax {E : Type} (d : DataSet E) ( transfer_syntax : String) :
    DataSet E :=
  { d with _transfer_syntax := transfer_syntax }

/-- Modelled from the spec: `add(tag, Value::Strings, vr = VR::UNKNOWN)`. The dictionary
that gives the VR of a tag when none is passed is a parameter (`as_vr`). -/
def add_strings (as_vr : Tag → VR) (d : DataSet (Element Value)) (tag : Tag)
    (value : List String) (vr : VR) : DataSet (Element Value) :=
  d.add tag ⟨Value.Strings value, if vr = VR.UNKNOWN then as_vr tag else vr⟩

/-- Modelled from the spec: `as_string(tag) const`; fails if the tag is absent or the
value is not of the string kind. -/
def as_string (d : DataSet (Element Value)) (tag : Tag) : Except Exception (List String) :=
  match d.get tag with
  | .error e => .error e
  | .ok e =>
    match e.value with
    | .Strings v => .ok v
    | _ => .error ⟨"Type mismatch"⟩

/-- The traversal `begin() .. end()` with the `const_iterator` of `DataSet.h`
(`std::map<Tag, Element>::const_iterator`): the entries in iteration order. -/
def iterate {E : Type} (d : DataSet E) : List (Tag × E) := d._elements

/-- The tags visited by the traversal `begin() .. end()`. -/
def tags {E : Type} (d : DataSet E) : List Tag := d.iterate.map Prod.fst

/-- Data sets obtained from the constructor by the public operations that can change
the element map or the transfer syntax. -/
inductive Reachable : DataSet (Element Value) → Prop
  | create (ts : String) : Reachable (create ts)
  | add (d) (tag : Tag) (e : Element Value) : Reachable d → Reachable (d.add tag e)
  | remove (d) (tag : Tag) : Reachable d → Reachable (d.remove tag).2
  | update (d) (tag : Tag) (f : Element Value → Element Value) :
      Reachable d → Reachable (d.update tag f).2
  | clear (d) : Reachable d → Reachable d.clear
  | clear_tag (d) (tag : Tag) : Reachable d → Reachable (d.clear_tag tag).2
  | set_transfer_syntax (d) (ts : String) : Reachable d → Reachable ( set_transfer_syntax d ts)

/-- Adding the listed elements one after the other. -/
def add_all {E : Type} (d : DataSet E) (l : List (Tag × E)) : DataSet E :=
  l.foldl (fun acc p => acc.add p.1 p.2) d

end DataSet

/-! ## DIMSE messages -/

namespace message

/-- Modelled from the spec: `message/Response.h` is not among the sources. Status codes:
Success is 0x0000, Pending is 0xFF00. -/
def Response.Success : Nat := 0x0000

/-- Modelled from the spec: the status code `Pending` (0xFF00). -/
def Response.Pending : Nat := 0xFF00

/-- Modelled from the spec: the status code `Cancel` (0xFE00). -/
def Response.Cancel : Nat := 0xFE00

/-- Modelled from the spec: `Response::is_pending`, "Pending (0xFF00, 0xFF01)". -/
def Response.is_pending (status : Nat) : Bool :=
  status == 0xFF00 || status == 0xFF01

/-- Modelled from the spec: `Response::is_warning`, "Warning (0xB000–0xBFFF, plus specific
per-op codes)"; the spec names no per-operation code, the range is what is modelled. -/
def Response.is_warning (status : Nat) : Bool :=
  decide (0xB000 ≤ status) && decide (status ≤ 0xBFFF)

/-- Modelled from the spec: `Response::is_failure`, "Failure (all others except
Pending/Cancel)". -/
def Response.is_failure (status : Nat) : Bool :=
  status != Response.Success && !Response.is_warning status &&
    !Response.is_pending status && status != Response.Cancel

/-- Modelled from the spec: `Message::Priority`. -/
inductive Priority where
  | LOW | MEDIUM | HIGH
deriving DecidableEq, Repr

/-- Modelled from the spec: `message/CFindRequest.h` is not among the sources. The fields
read through `get_message_id()`, `get_affected_sop_class_uid()`, and the priority and
query the request is built from; `D` is the type of the data set it carries. -/
structure CFindRequest (D : Type) where
  message_id : Nat
  affected_sop_class_uid : String
  priority : Priority
  data_set : D

/-- Modelled from the spec: `message/CFindResponse.h` is not among the sources. The fields
read through `get_message_id_being_responded_to()`, `get_status()`,
`has_affected_sop_class_uid()` / `get_affected_sop_class_uid()` (an optional field) and
`get_data_set()`; `D` is the type of what `get_data_set()` returns. -/
structure CFindResponse (D : Type) where
  message_id_being_responded_to : Nat
  status : Nat
  affected_sop_class_uid : Option String
  data_set : D

/-- The accessor `has_affected_sop_class_uid()`. -/
def CFindResponse.has_affected_sop_class_uid {D : Type} (r : CFindResponse D) : Bool :=
  r.affected_sop_class_uid.isSome

/-- The accessor `get_affected_sop_class_uid()`, used only where the field is present. -/
def CFindResponse.get_affected_sop_class_uid {D : Type} (r : CFindResponse D) : String :=
  r.affected_sop_class_uid.getD ""

/-- The accessor `is_pending()` of a response. -/
def CFindResponse.is_pending {D : Type} (r : CFindResponse D) : Bool :=
  Response.is_pending r.status

end message

open message

/-! ## Association, as seen by the C-FIND SCU -/

/-- Modelled from the spec: `Association.h` is not among the sources. What `FindSCU` uses
of an association: the counter behind `next_message_id()`, the messages handed to
`send_message` (with the abstract syntax), the responses the peer delivers, in order, to
the successive `receive_message()` calls, and the number of such calls made. -/
structure Association (D : Type) where
  _next_message_id : Nat
  sent : List (CFindRequest D × String)
  inbox : List (CFindResponse D)
  receive_calls : Nat

/-- Modelled from the spec: `Association::next_message_id()`; message ids are 16-bit
values handed out by a counter. -/
def Association.next_message_id {D : Type} (a : Association D) : Nat × Association D :=
  ((a._next_message_id + 1) % 65536,
   { a with _next_message_id := (a._next_message_id + 1) % 65536 })

/-- Modelled from the spec: `Association::send_message(message, abstract_syntax)`. -/
def Association.send_message {D : Type} (a : Association D)
    (request : CFindRequest D) ( abstract_syntax : String) : Association D :=
  { a with sent := a.sent ++ [(request, abstract_syntax)] }

/-- Severity of a record written through `ODIL_LOG`. -/
inductive Severity where
  | warning | error
deriving DecidableEq, Repr

/-- A record written through `ODIL_LOG(severity) << text`. -/
structure LogRecord where
  severity : Severity
  text : String
deriving DecidableEq, Repr

/-- What leaves `FindSCU::_find` by a `throw`: an `odil::Exception` raised by `_find`
itself, or the failure of `receive_message()` when the peer delivers nothing more
(association released or aborted). -/
inductive Thrown where
  | exception (e : Exception)
  | receive_failed
deriving DecidableEq, Repr

/-- State at the end of a run of `FindSCU::_find`: how it ended, the responses not yet
received, the number of `receive_message()` calls, the records logged, and the state `σ`
the callback acts on. -/
structure Run (D σ : Type) where
  result : Except Thrown Unit
  inbox : List (CFindResponse D)
  receive_calls : Nat
  log : List LogRecord
  user : σ

/-- Class `FindSCU` (with the members of its base `SCU`). -/
structure FindSCU (D : Type) where
  _association : Association D
  _affected_sop_class : String

namespace FindSCU

/-- Text of the exception of lines 81-85 of `FindSCU.cpp`. -/
def unexpected_message_id (got expected : Nat) : Exception :=
  ⟨"DIMSE: Unexpected Response MsgId: " ++ toString got ++
    "(expected: " ++ toString expected ++ ")"⟩

/-- Text of the exception of lines 90-94 of `FindSCU.cpp`. -/
def unexpected_sop_class (got expected : String) : Exception :=
  ⟨"DIMSE: Unexpected Response Affected SOP Class UID: " ++ got ++
    " (expected: " ++ expected ++ ")"⟩

/-- Lines 97-104 of `FindSCU.cpp`: the record logged for a response status, if any. -/
def log_status (log : List LogRecord) (status : Nat) : List LogRecord :=
  if Response.is_warning status then
    log ++ [⟨Severity.warning, "C-FIND response status: " ++ toString status⟩]
  else if Response.is_failure status then
    log ++ [⟨Severity.error, "C-FIND response status: " ++ toString status⟩]
  else log

/-- The `while(!done)` loop of `FindSCU::_find` (lines 72-111). The first argument is the
sequence of responses `receive_message()` will deliver; each iteration takes its head,
and when nothing is left `receive_message()` fails and its exception leaves the method.
The callback is a state transformer on `σ` that returns normally. -/
def receive_loop {D σ : Type} (request : CFindRequest D) (callback : D → σ → σ) :
    List (CFindResponse D) → Nat → List LogRecord → σ → Run D σ
  | [], calls, log, user => ⟨.error Thrown.receive_failed, [], calls + 1, log, user⟩
  | response :: inbox, calls, log, user =>
    if response.message_id_being_responded_to ≠ request.message_id then
      ⟨.error (Thrown.exception (unexpected_message_id
          response.message_id_being_responded_to request.message_id)),
        inbox, calls + 1, log, user⟩
    else if response.has_affected_sop_class_uid &&
        response.get_affected_sop_class_uid != request.affected_sop_class_uid then
      ⟨.error (Thrown.exception (unexpected_sop_class
          response.get_affected_sop_class_uid request.affected_sop_class_uid)),
        inbox, calls + 1, log, user⟩
    else
      let log := log_status log response.status
      let done := !response.is_pending
      if !done then
        receive_loop request callback inbox (calls + 1) log (callback response.data_set user)
      else
        ⟨.ok (), inbox, calls + 1, log, user⟩

/-- State after `FindSCU::_find` or `FindSCU::find`: the run and the association. -/
structure Outcome (D σ : Type) where
  run : Run D σ
  association : Association D

/-- The method `FindSCU::_find(request, callback)` (lines 63-112). -/
def _find {D σ : Type} (scu : FindSCU D) (request : CFindRequest D)
    (callback : D → σ → σ) (user : σ) : Outcome D σ :=
  let a := scu._association.send_message request scu._affected_sop_class
  let run := receive_loop request callback a.inbox a.receive_calls [] user
  ⟨run, { a with inbox := run.inbox, receive_calls := run.receive_calls }⟩

/-- The request built by `FindSCU::find` (lines 37-39). -/
def request {D : Type} (scu : FindSCU D) (query : D) : CFindRequest D :=
  ⟨scu._association.next_message_id.1, scu._affected_sop_class, Priority.MEDIUM, query⟩

/-- The method `FindSCU::find(query, callback)` (lines 33-41). -/
def find {D σ : Type} (scu : FindSCU D) (query : D)
    (callback : D → σ → σ) (user : σ) : Outcome D σ :=
  _find { scu with _association := scu._association.next_message_id.2 }
    (request scu query) callback user

/-- The responses a run has received: those taken from the inbox it started with. -/
def received {D σ : Type} (scu : FindSCU D) (out : Outcome D σ) : List (CFindResponse D) :=
  scu._association.inbox.take (out.run.receive_calls - scu._association.receive_calls)

/-- A response that passes both checks of the loop for the given request. -/
def matches_request {D : Type} (request : CFindRequest D) (r : CFindResponse D) : Prop :=
  r.message_id_being_responded_to = request.message_id ∧
    (r.affected_sop_class_uid = none ∨
      r.affected_sop_class_uid = some request.affected_sop_class_uid)

instance {D : Type} (request : CFindRequest D) (r : CFindResponse D) :
    Decidable (matches_request request r) :=
  inferInstanceAs (Decidable (_ ∧ _))

/-- The callback that records the data sets it is invoked with, in order (the callback
of `FindSCU::find(query)`, lines 55-57). -/
def record {D : Type} (data_set : D) (result : List D) : List D :=
  result ++ [data_set]

end FindSCU

end odil

/-! ## The example response generator of `examples/genericscp.cpp` -/

namespace registry

/-- Modelled from the spec: `registry.h` is not among the sources; PatientName is tag
(0010,0010). -/
def PatientName : odil.Tag := ⟨0x0010, 0x0010⟩

/-- Modelled from the spec: `registry.h` is not among the sources; PatientID is tag
(0010,0020) of the DICOM data dictionary. -/
def PatientID : odil.Tag := ⟨0x0010, 0x0020⟩

end registry

open odil odil.message

/-- The data sets handled by the example. -/
abbrev Identifier := DataSet (Element Value)

/-- A data set built by adding PatientID first and PatientName second. -/
def sample_data_set : Identifier :=
  ((DataSet.create "").add registry.PatientID ⟨Value.Strings ["1234"], VR.LO⟩).add
    registry.PatientName ⟨Value.Strings ["Hello^World"], VR.PN⟩

/-! ### Concrete messages, used to exercise the definitions -/

namespace Sample

/-- The SOP class of scenario S2 (Study Root Query/Retrieve, FIND). -/
def sop_class : String := "1.2.840.10008.5.1.4.1.2.2.1"

/-- A query identifier with an empty PatientName. -/
def query : Identifier :=
  (DataSet.create "").add registry.PatientName ⟨Value.Strings [""], VR.PN⟩

/-- A first match. -/
def match_1 : Identifier :=
  ((DataSet.create "").add registry.PatientName ⟨Value.Strings ["Hello^World"], VR.PN⟩).add
    registry.PatientID ⟨Value.Strings ["1234"], VR.LO⟩

/-- A second match. -/
def match_2 : Identifier :=
  ((DataSet.create "").add registry.PatientName ⟨Value.Strings ["Doe^John"], VR.PN⟩).add
    registry.PatientID ⟨Value.Strings ["5678"], VR.LO⟩

/-- A C-FIND request with message id 1. -/
def request : CFindRequest Identifier :=
  ⟨1, sop_class, Priority.MEDIUM, query⟩

/-- A Pending response to message 1, carrying the SOP class. -/
def pending_1 : CFindResponse Identifier := ⟨1, 0xFF00, some sop_class, match_1⟩

/-- A Pending response to message 1, without SOP class. -/
def pending_2 : CFindResponse Identifier := ⟨1, 0xFF00, none, match_2⟩

/-- A Success response to message 1. -/
def success : CFindResponse Identifier := ⟨1, 0x0000, some sop_class, DataSet.create ""⟩

/-- A Warning response (status 0xB000) to message 1. -/
def warning : CFindResponse Identifier := ⟨1, 0xB000, some sop_class, DataSet.create ""⟩

/-- A Failure response (status 0xA700) to message 1. -/
def failure : CFindResponse Identifier := ⟨1, 0xA700, none, DataSet.create ""⟩

/-- A Pending response to another message (id 2). -/
def stray : CFindResponse Identifier := ⟨2, 0xFF00, some sop_class, match_2⟩

/-- A Pending response to message 1 with the Verification SOP class. -/
def other_class : CFindResponse Identifier := ⟨1, 0xFF00, some "1.2.840.10008.1.1", match_2⟩

/-- An SCU on an association that has handed out no message id yet and whose peer
delivers the given responses. -/
def scu (inbox : List (CFindResponse Identifier)) : FindSCU Identifier :=
  ⟨⟨0, [], inbox, 0⟩, sop_class⟩

end Sample

/-- The `enum class State` of `FindGenerator`. -/
inductive FindGenerator.State where
  | NotInitialized
  | Pending
  | Final
  | Done
deriving DecidableEq, Repr

/-- Class `FindGenerator`: `_request` (null until set), `_state`, `_responses` and
`_response_iterator`, held as the index of the designated element (`begin()` is 0,
`end()` is the length). -/
structure FindGenerator where
  _request : Option (CFindRequest Identifier)
  _state : FindGenerator.State
  _responses : List Identifier
  _response_iterator : Nat

/-- How a call ends: it returns a value, raises an `Exception`, or has no defined
behaviour (a null `_request` or an iterator that designates no element is used). -/
inductive Call (α : Type) where
  | returned (a : α)
  | raised (e : odil.Exception)
  | undefined

namespace FindGenerator

/-- The constructor `FindGenerator()`. -/
def create : FindGenerator :=
  ⟨none, State.NotInitialized, [], 0⟩

/-- The first data set built by the method of lines 36-38. -/
def data_set_1 (as_vr : Tag → VR) : Identifier :=
  ((DataSet.create "").add_strings as_vr registry.PatientName ["Hello^World"] VR.UNKNOWN
    ).add_strings as_vr registry.PatientID ["1234"] VR.UNKNOWN

/-- The second data set built by the method of lines 41-43. -/
def data_set_2 (as_vr : Tag → VR) : Identifier :=
  ((DataSet.create "").add_strings as_vr registry.PatientName ["Doe^John"] VR.UNKNOWN
    ).add_strings as_vr registry.PatientID ["5678"] VR.UNKNOWN

end FindGenerator

/-- The method `FindGenerator::initialize(request)` (lines 30-47); `as_vr` is the
dictionary used by `DataSet::add`. -/
def FindGenerator.initialize (as_vr : Tag → VR) (g : FindGenerator)
    (request : CFindRequest Identifier) : FindGenerator :=
  { _request := some request,
    _state := FindGenerator.State.Pending,
    _responses := g._responses ++
      [FindGenerator.data_set_1 as_vr, FindGenerator.data_set_2 as_vr],
    _response_iterator := 0 }

namespace FindGenerator

/-- The method `FindGenerator::done()` (lines 49-52). -/
def done (g : FindGenerator) : Bool :=
  g._state == State.Done

/-- The method `FindGenerator::get()` (lines 54-81), with the generator after the call. -/
def get (g : FindGenerator) : Call (CFindResponse (Option Identifier)) × FindGenerator :=
  match g._state with
  | State.NotInitialized => (.raised ⟨"Find generator not initialized"⟩, g)
  | State.Pending =>
    match g._request, g._responses[g._response_iterator]? with
    | some request, some data_set =>
      (.returned ⟨request.message_id, Response.Pending, none, some data_set⟩, g)
    | _, _ => (.undefined, g)
  | State.Final =>
    match g._request with
    | some request => (.returned ⟨request.message_id, Response.Success, none, none⟩, g)
    | none => (.undefined, g)
  | State.Done => (.raised ⟨"Generator is finished"⟩, g)

/-- The method `FindGenerator::next()` (lines 83-109), with the generator after the
call. -/
def next (g : FindGenerator) : Call Unit × FindGenerator :=
  match g._state with
  | State.NotInitialized => (.raised ⟨"Find generator not initialized"⟩, g)
  | State.Pending =>
    if g._response_iterator < g._responses.length then
      if g._response_iterator + 1 = g._responses.length then
        (.returned (), { g with _response_iterator := g._response_iterator + 1,
                                _state := State.Final })
      else
        (.returned (), { g with _response_iterator := g._response_iterator + 1 })
    else (.undefined, g)
  | State.Final => (.returned (), { g with _state := State.Done })
  | State.Done => (.raised ⟨"Generator is finished"⟩, g)

/-- Generators obtained from the constructor by calls of the methods, failed calls
included: `Reachable last g` holds when `g` is such a generator and `last` is the request
passed to the most recent call of the initialisation method (`none` if there was none). -/
inductive Reachable : Option (CFindRequest Identifier) → FindGenerator → Prop
  | create : Reachable none create
  | init (as_vr : Tag → VR) (last : Option (CFindRequest Identifier)) (g : FindGenerator)
      (request : CFindRequest Identifier) :
      Reachable last g → Reachable (some request) ( FindGenerator.initialize as_vr g request)
  | get (last : Option (CFindRequest Identifier)) (g : FindGenerator) :
      Reachable last g → Reachable last (get g).2
  | next (last : Option (CFindRequest Identifier)) (g : FindGenerator) :
      Reachable last g → Reachable last (next g).2

/-- State of the loop that drives a generator: how it ended, the generator, the responses
sent so far, and the number of iterations made. -/
structure Served where
  ended : Call Unit
  generator : FindGenerator
  sent : List (CFindResponse (Option Identifier))
  iterations : Nat

/-- Modelled from the spec: `FindSCP.cpp` is not among the sources; "the SCP loop:
initialize; while not done: get, send, next". This is the `while` part; `fuel` bounds the
number of tests of `done()`, and `none` means the bound was reached. -/
def serve_loop : Nat → FindGenerator → List (CFindResponse (Option Identifier)) → Nat →
    Option Served
  | 0, _, _, _ => none
  | fuel + 1, g, sent, n =>
    if g.done then some ⟨.returned (), g, sent, n⟩
    else
      match g.get with
      | (.returned response, g₁) =>
        match g₁.next with
        | (.returned (), g₂) => serve_loop fuel g₂ (sent ++ [response]) (n + 1)
        | (.raised e, g₂) => some ⟨.raised e, g₂, sent ++ [response], n + 1⟩
        | (.undefined, g₂) => some ⟨.undefined, g₂, sent ++ [response], n + 1⟩
      | (.raised e, g₁) => some ⟨.raised e, g₁, sent, n + 1⟩
      | (.undefined, g₁) => some ⟨.undefined, g₁, sent, n + 1⟩

/-- Modelled from the spec: the SCP loop on a fresh generator, "initialize; while not
done: get, send, next". -/
def serve (fuel : Nat) (as_vr : Tag → VR) (request : CFindRequest Identifier) :
    Option Served :=
  serve_loop fuel ( FindGenerator.initialize as_vr create request) [] 0

end FindGenerator

/-! ## `FindSCU::find(query)`, the variant without callback -/

namespace odil.FindSCU

/-- The method `FindSCU::find(query)` (lines 50-61), the overload without callback: the
callback variant is run with the callback that pushes each data set at the back of
`result` (initially empty); `result` is returned when that call returns, and an exception
of that call leaves this method too. The association after the call is returned with
it. -/
def find_data_sets {D : Type} (scu : FindSCU D) (query : D) :
    Except Thrown (List D) × Association D :=
  match (find scu query record []).run.result with
  | .ok () => (.ok (find scu query record []).run.user, (find scu query record []).association)
  | .error e => (.error e, (find scu query record []).association)

end odil.FindSCU

/-! ## The Python iterator over `Value::Strings` of `wrappers/python/Value.cpp` -/

namespace wrappers

/-- The Python object `pybind11::bytes(std::string)`: a bytes object with the content of
the string. -/
structure bytes where
  content : String
deriving DecidableEq, Repr

/-- The `pybind11::detail::iterator_state` used by `Strings.__iter__` (lines 124-125):
the iterators `it` and `end` into the vector, held as indices (`begin()` is 0, `end()` is
the length), and the flag `first_or_done`. -/
structure state where
  it : Nat
  end_ : Nat
  first_or_done : Bool
deriving DecidableEq, Repr

/-- How a `__next__` call ends: it returns a value, raises `StopIteration`
(`pybind11::stop_iteration`), or has no defined behaviour (an iterator that designates
no element of the vector is dereferenced). -/
inductive Next where
  | returned (value : bytes)
  | stop_iteration
  | undefined
deriving DecidableEq, Repr

/-- The state returned by `Strings.__iter__` (line 149): `state{v.begin(), v.end(), true}`. -/
def __iter__ (v : List String) : state :=
  ⟨0, v.length, true⟩

/-- The method `__next__` of the iterator (lines 131-146) on the vector `v` the state
iterates over, with the state after the call. -/
def __next__ (v : List String) (s : state) : Next × state :=
  let s₁ : state :=
    if !s.first_or_done then { s with it := s.it + 1 }
    else { s with first_or_done := false }
  if s₁.it = s₁.end_ then
    (Next.stop_iteration, { s₁ with first_or_done := true })
  else
    match v[s₁.it]? with
    | some x => (Next.returned ⟨x⟩, s₁)
    | none => (Next.undefined, s₁)

/-- The iterator state after `k` calls of `__next__` on the iterator created by
`Strings.__iter__` for `v`. -/
def after (v : List String) : Nat → state
  | 0 => __iter__ v
  | k + 1 => (__next__ v (after v k)).2

/-- The outcome of call number `k + 1` of `__next__` on the iterator created by
`Strings.__iter__` for `v`. -/
def call (v : List String) (k : Nat) : Next :=
  (__next__ v (after v k)).1

end wrappers

namespace odil

/-! ## Facts about the element map -/

theorem Tag.lt_def (a b : Tag) :
    a < b ↔ a.group < b.group ∨ (a.group = b.group ∧ a.element < b.element) := Iff.rfl

theorem Tag.lt_irrefl (a : Tag) : ¬ a < a := by
  rw [Tag.lt_def]; omega

theorem Tag.lt_trans {a b c : Tag} (h₁ : a < b) (h₂ : b < c) : a < c := by
  rw [Tag.lt_def] at *; omega

theorem Tag.lt_asymm {a b : Tag} (h : a < b) : ¬ b < a := by
  rw [Tag.lt_def] at *; omega

theorem Tag.eq_of_not_lt {a b : Tag} (h₁ : ¬ a < b) (h₂ : ¬ b < a) : a = b := by
  rw [Tag.lt_def] at *
  cases a; cases b
  simp only [Tag.mk.injEq] at *
  omega

theorem Tag.ne_of_lt {a b : Tag} (h : a < b) : a ≠ b := by
  intro e; subst e; exact Tag.lt_irrefl a h

namespace ElementMap

theorem mem_keys_assign {E : Type} (tag : Tag) (e : E) (m : List (Tag × E)) (k : Tag) :
    k ∈ keys (assign tag e m) ↔ k = tag ∨ k ∈ keys m := by
  induction m with
  | nil => simp [assign, keys]
  | cons hd tl ih =>
    obtain ⟨t, x⟩ := hd
    unfold assign
    by_cases h₁ : tag < t
    · simp [h₁, keys]
    · by_cases h₂ : t < tag
      · simp only [h₁, h₂, if_false, if_true]
        simp only [keys, List.map_cons, List.mem_cons] at ih ⊢
        rw [ih]; tauto
      · have : tag = t := Tag.eq_of_not_lt h₁ h₂
        subst this
        simp [h₁, keys]

theorem ordered_assign {E : Type} (tag : Tag) (e : E) (m : List (Tag × E))
    (h : Ordered m) : Ordered (assign tag e m) := by
  induction m with
  | nil => simp [assign, Ordered, keys]
  | cons hd tl ih =>
    obtain ⟨t, x⟩ := hd
    have hcons : (∀ k ∈ keys tl, t < k) ∧ Ordered tl := by
      simpa [Ordered, keys] using h
    unfold assign
    by_cases h₁ : tag < t
    · simp only [h₁, if_true]
      simp only [Ordered, keys, List.map_cons, List.pairwise_cons, List.mem_cons]
      refine ⟨?_, ?_, hcons.2⟩
      · intro k hk
        rcases hk with rfl | hk
        · exact h₁
        · exact Tag.lt_trans h₁ (hcons.1 k hk)
      · exact hcons.1
    · by_cases h₂ : t < tag
      · simp only [h₁, h₂, if_false, if_true]
        have ih' := ih hcons.2
        simp only [Ordered, keys, List.map_cons, List.pairwise_cons]
        refine ⟨?_, ih'⟩
        intro k hk
        rcases (mem_keys_assign tag e tl k).1 hk with rfl | hk
        · exact h₂
        · exact hcons.1 k hk
      · have : tag = t := Tag.eq_of_not_lt h₁ h₂
        subst this
        simp only [h₁, if_false]
        simpa [Ordered, keys] using h

theorem keys_erase_sublist {E : Type} (tag : Tag) (m : List (Tag × E)) :
    (keys (erase tag m)).Sublist (keys m) := by
  induction m with
  | nil => simp [erase, keys]
  | cons hd tl ih =>
    obtain ⟨t, x⟩ := hd
    unfold erase
    by_cases h : t = tag
    · simp only [h, if_true, keys, List.map_cons]
      exact List.Sublist.cons _ ih
    · simp only [h, if_false, keys, List.map_cons]
      exact List.Sublist.cons₂ _ ih

theorem ordered_erase {E : Type} (tag : Tag) (m : List (Tag × E))
    (h : Ordered m) : Ordered (erase tag m) :=
  List.Pairwise.sublist (keys_erase_sublist tag m) h

theorem keys_modify {E : Type} (tag : Tag) (f : E → E) (m : List (Tag × E)) :
    keys (modify tag f m) = keys m := by
  induction m with
  | nil => simp [modify, keys]
  | cons hd tl ih =>
    obtain ⟨t, x⟩ := hd
    unfold modify
    by_cases h : t = tag
    · simp [h, keys]
    · simp only [h, if_false, keys, List.map_cons] at ih ⊢
      rw [ih]

theorem ordered_modify {E : Type} (tag : Tag) (f : E → E) (m : List (Tag × E))
    (h : Ordered m) : Ordered (modify tag f m) := by
  unfold Ordered at *
  rw [keys_modify]; exact h

/-- Assignments at two different keys commute. -/
theorem assign_comm {E : Type} (t₁ t₂ : Tag) (e₁ e₂ : E) (hne : t₁ ≠ t₂)
    (m : List (Tag × E)) :
    assign t₁ e₁ (assign t₂ e₂ m) = assign t₂ e₂ (assign t₁ e₁ m) := by
  induction m with
  | nil =>
    simp only [assign]
    by_cases h : t₁ < t₂
    · have h' := Tag.lt_asymm h
      simp [h, h']
    · have h' : t₂ < t₁ := by
        by_contra hc; exact hne (Tag.eq_of_not_lt h hc)
      simp [h, h']
  | cons hd tl ih =>
    obtain ⟨t, x⟩ := hd
    by_cases a₁ : t₁ < t <;> by_cases b₁ : t < t₁ <;>
      by_cases a₂ : t₂ < t <;> by_cases b₂ : t < t₂ <;>
      by_cases c : t₁ < t₂ <;> by_cases c' : t₂ < t₁ <;>
      first
        | (exfalso; exact Tag.lt_asymm a₁ b₁)
        | (exfalso; exact Tag.lt_asymm a₂ b₂)
        | (exfalso; exact Tag.lt_asymm c c')
        | (exfalso; exact hne (Tag.eq_of_not_lt c c'))
        | (exfalso; exact hne ((Tag.eq_of_not_lt a₁ b₁).trans (Tag.eq_of_not_lt a₂ b₂).symm))
        | (exfalso; exact c (Tag.lt_trans a₁ b₂))
        | (exfalso; exact c' (Tag.lt_trans a₂ b₁))
        | (exfalso; have := Tag.eq_of_not_lt a₁ b₁; subst this; exact c' a₂)
        | (exfalso; have := Tag.eq_of_not_lt a₁ b₁; subst this; exact c b₂)
        | (exfalso; have := Tag.eq_of_not_lt a₂ b₂; subst this; exact c a₁)
        | (exfalso; have := Tag.eq_of_not_lt a₂ b₂; subst this; exact c' b₁)
        | simp [assign, a₁, b₁, a₂, b₂, c, c', ih]

end ElementMap

end odil

/-! ## Data sets: ordering of the traversal -/

namespace odil

theorem DataSet.ordered_of_reachable (d : DataSet (Element Value))
    (h : DataSet.Reachable d) : ElementMap.Ordered d._elements := by
  induction h with
  | create ts => simp [DataSet.create, ElementMap.Ordered, ElementMap.keys]
  | add d tag e _ ih => exact ElementMap.ordered_assign tag e _ ih
  | remove d tag _ ih =>
    unfold DataSet.remove
    split
    · exact ElementMap.ordered_erase tag _ ih
    · exact ih
  | update d tag f _ ih =>
    unfold DataSet.update
    split
    · exact ElementMap.ordered_modify tag f _ ih
    · exact ih
  | clear d _ _ => simp [DataSet.clear, ElementMap.Ordered, ElementMap.keys]
  | clear_tag d tag _ ih =>
    unfold DataSet.clear_tag DataSet.update
    split
    · exact ElementMap.ordered_modify tag _ _ ih
    · exact ih
  | set_transfer_syntax d ts _ ih => exact ih

theorem DataSet.add_comm {E : Type} (d : DataSet E) (x y : Tag × E) (hne : x.1 ≠ y.1) :
    (d.add x.1 x.2).add y.1 y.2 = (d.add y.1 y.2).add x.1 x.2 := by
  simp only [DataSet.add]
  rw [ElementMap.assign_comm y.1 x.1 y.2 x.2 (Ne.symm hne)]

theorem DataSet.add_all_perm {E : Type} (d : DataSet E) (l₁ l₂ : List (Tag × E))
    (hp : l₁.Perm l₂) (hnd : (l₁.map Prod.fst).Nodup) :
    d.add_all l₁ = d.add_all l₂ := by
  unfold DataSet.add_all
  refine List.Perm.foldl_eq' hp ?_ d
  intro x hx y hy z
  by_cases hxy : x = y
  · subst hxy; rfl
  · have hne : x.1 ≠ y.1 := fun he => hxy (List.inj_on_of_nodup_map hnd hx hy he)
    exact DataSet.add_comm z x y hne

end odil

open odil odil.message

/-- C10: in every data set reachable from the constructor through the public operations
(add, remove, write access to an element, clear, clear of an element, change of transfer
syntax), the traversal from `begin()` to `end()` visits no tag twice and visits the tags
in strictly ascending order, by group and then by element; and elements with distinct tags
added in two different orders give the same traversal. -/
theorem dataset_traversal_strictly_ascending (d : DataSet (Element Value))
    (h : DataSet.Reachable d) :
    d.tags.Nodup ∧
    d.tags.Pairwise
      (fun a b => a.group < b.group ∨ (a.group = b.group ∧ a.element < b.element)) ∧
    (∀ l₁ l₂ : List (Tag × Element Value), l₁.Perm l₂ → (l₁.map Prod.fst).Nodup →
      (d.add_all l₁).iterate = (d.add_all l₂).iterate) := by
  have ho : d.tags.Pairwise (· < ·) := DataSet.ordered_of_reachable d h
  refine ⟨?_, ho, ?_⟩
  · exact List.Pairwise.imp (fun hab => Tag.ne_of_lt hab) ho
  · intro l₁ l₂ hp hnd
    rw [DataSet.add_all_perm d l₁ l₂ hp hnd]

/-- Witness for C10: PatientID added before PatientName, on a reachable data set. -/
theorem dataset_traversal_strictly_ascending_witness :
    DataSet.Reachable sample_data_set ∧
    sample_data_set.tags = [registry.PatientName, registry.PatientID] ∧
    sample_data_set.tags.Nodup :=
  ⟨DataSet.Reachable.add _ _ _ (DataSet.Reachable.add _ _ _ (DataSet.Reachable.create "")),
   by decide,
   (dataset_traversal_strictly_ascending sample_data_set
      (DataSet.Reachable.add _ _ _
        (DataSet.Reachable.add _ _ _ (DataSet.Reachable.create "")))).1⟩

/-! ## The receive loop of the C-FIND SCU -/

namespace odil.FindSCU

theorem is_warning_not_pending (status : Nat) (h : Response.is_warning status = true) :
    Response.is_pending status = false := by
  simp only [Response.is_warning, Response.is_pending, Bool.and_eq_true, decide_eq_true_eq,
    Bool.or_eq_false_iff, beq_eq_false_iff_ne] at *
  omega

theorem log_status_pending (log : List LogRecord) (status : Nat)
    (h : Response.is_pending status = true) : log_status log status = log := by
  have hw : Response.is_warning status = false := by
    cases hc : Response.is_warning status
    · rfl
    · rw [is_warning_not_pending status hc] at h; cases h
  simp [log_status, hw, Response.is_failure, h]

theorem log_status_warning (log : List LogRecord) (status : Nat)
    (h : Response.is_warning status = true) :
    log_status log status =
      log ++ [⟨Severity.warning, "C-FIND response status: " ++ toString status⟩] := by
  simp [log_status, h]

/-- A response that matches the request passes the two checks of the loop. -/
theorem sop_check_of_matches {D : Type} (request : CFindRequest D) (r : CFindResponse D)
    (h : matches_request request r) :
    (r.has_affected_sop_class_uid &&
      r.get_affected_sop_class_uid != request.affected_sop_class_uid) = false := by
  rcases h.2 with h | h
  · simp [CFindResponse.has_affected_sop_class_uid, h]
  · simp [CFindResponse.has_affected_sop_class_uid, CFindResponse.get_affected_sop_class_uid, h]

/-- The SOP class check of the loop fails exactly on a present, different UID. -/
theorem sop_check_true_iff {D : Type} (request : CFindRequest D) (r : CFindResponse D) :
    (r.has_affected_sop_class_uid &&
      r.get_affected_sop_class_uid != request.affected_sop_class_uid) = true ↔
    ∃ uid, r.affected_sop_class_uid = some uid ∧ uid ≠ request.affected_sop_class_uid := by
  cases h : r.affected_sop_class_uid with
  | none => simp [CFindResponse.has_affected_sop_class_uid, h]
  | some u =>
    simp [CFindResponse.has_affected_sop_class_uid, CFindResponse.get_affected_sop_class_uid, h]

/-- One iteration on a matching Pending response: the callback runs and the loop goes on. -/
theorem receive_loop_pending {D σ : Type} (request : CFindRequest D) (callback : D → σ → σ)
    (r : CFindResponse D) (rest : List (CFindResponse D)) (calls : Nat)
    (log : List LogRecord) (user : σ)
    (hm : matches_request request r) (hp : r.is_pending = true) :
    receive_loop request callback (r :: rest) calls log user =
      receive_loop request callback rest (calls + 1) log (callback r.data_set user) := by
  have h₂ := sop_check_of_matches request r hm
  have hl : log_status log r.status = log := log_status_pending log r.status hp
  rw [receive_loop]
  simp [hm.1, h₂, hp, hl]

/-- One iteration on a matching response that is not Pending: the loop ends normally. -/
theorem receive_loop_final {D σ : Type} (request : CFindRequest D) (callback : D → σ → σ)
    (r : CFindResponse D) (rest : List (CFindResponse D)) (calls : Nat)
    (log : List LogRecord) (user : σ)
    (hm : matches_request request r) (hp : r.is_pending = false) :
    receive_loop request callback (r :: rest) calls log user =
      ⟨.ok (), rest, calls + 1, log_status log r.status, user⟩ := by
  have h₂ := sop_check_of_matches request r hm
  rw [receive_loop]
  simp [hm.1, h₂, hp]

/-- One iteration on a response with another message id. -/
theorem receive_loop_bad_id {D σ : Type} (request : CFindRequest D) (callback : D → σ → σ)
    (r : CFindResponse D) (rest : List (CFindResponse D)) (calls : Nat)
    (log : List LogRecord) (user : σ)
    (h : r.message_id_being_responded_to ≠ request.message_id) :
    receive_loop request callback (r :: rest) calls log user =
      ⟨.error (Thrown.exception (unexpected_message_id
          r.message_id_being_responded_to request.message_id)),
        rest, calls + 1, log, user⟩ := by
  rw [receive_loop]
  simp [h]

/-- One iteration on a response with the right message id and another SOP class. -/
theorem receive_loop_bad_sop {D σ : Type} (request : CFindRequest D) (callback : D → σ → σ)
    (r : CFindResponse D) (rest : List (CFindResponse D)) (calls : Nat)
    (log : List LogRecord) (user : σ)
    (h : r.message_id_being_responded_to = request.message_id)
    (uid : String) (hu : r.affected_sop_class_uid = some uid)
    (hne : uid ≠ request.affected_sop_class_uid) :
    receive_loop request callback (r :: rest) calls log user =
      ⟨.error (Thrown.exception (unexpected_sop_class uid request.affected_sop_class_uid)),
        rest, calls + 1, log, user⟩ := by
  have h₂ := (sop_check_true_iff request r).2 ⟨uid, hu, hne⟩
  rw [receive_loop]
  simp only [h, ne_eq, not_true_eq_false, if_false, h₂, if_true]
  simp [CFindResponse.get_affected_sop_class_uid, hu]

/-- The loop over a prefix of matching Pending responses. -/
theorem receive_loop_prefix {D σ : Type} (request : CFindRequest D) (callback : D → σ → σ)
    (pre rest : List (CFindResponse D)) (calls : Nat) (log : List LogRecord) (user : σ)
    (hpre : ∀ p ∈ pre, matches_request request p ∧ p.is_pending = true) :
    receive_loop request callback (pre ++ rest) calls log user =
      receive_loop request callback rest (calls + pre.length) log
        (pre.foldl (fun u p => callback p.data_set u) user) := by
  induction pre generalizing calls user with
  | nil => simp
  | cons p tl ih =>
    have hp := hpre p (List.mem_cons_self _ _)
    rw [List.cons_append, receive_loop_pending request callback p _ calls log user hp.1 hp.2,
      ih (calls + 1) (callback p.data_set user)
        (fun q hq => hpre q (List.mem_cons_of_mem _ hq))]
    simp only [List.length_cons, List.foldl_cons]
    congr 1
    omega

/-- Every run makes at least one `receive_message()` call. -/
theorem receive_calls_gt {D σ : Type} (request : CFindRequest D) (callback : D → σ → σ)
    (inbox : List (CFindResponse D)) (calls : Nat) (log : List LogRecord) (user : σ) :
    calls + 1 ≤ (receive_loop request callback inbox calls log user).receive_calls := by
  induction inbox generalizing calls log user with
  | nil => simp [receive_loop]
  | cons r rest ih =>
    rw [receive_loop]
    split
    · simp
    · split
      · simp
      · simp only []
        split
        · exact Nat.le_of_succ_le (ih (calls + 1) _ _)
        · simp

/-- A run that ends normally has only received responses with the request's message id. -/
theorem receive_loop_ok_ids {D σ : Type} (request : CFindRequest D) (callback : D → σ → σ)
    (inbox : List (CFindResponse D)) (calls : Nat) (log : List LogRecord) (user : σ)
    (hok : (receive_loop request callback inbox calls log user).result = .ok ()) :
    ∀ p ∈ inbox.take ((receive_loop request callback inbox calls log user).receive_calls - calls),
      p.message_id_being_responded_to = request.message_id := by
  induction inbox generalizing calls log user with
  | nil => simp
  | cons r rest ih =>
    by_cases hid : r.message_id_being_responded_to = request.message_id
    · by_cases hsop : (r.has_affected_sop_class_uid &&
          r.get_affected_sop_class_uid != request.affected_sop_class_uid) = true
      · rw [receive_loop] at hok
        simp [hid, hsop] at hok
      · by_cases hp : r.is_pending = true
        · have hstep : receive_loop request callback (r :: rest) calls log user =
              receive_loop request callback rest (calls + 1) (log_status log r.status)
                (callback r.data_set user) := by
            rw [receive_loop]; simp [hid, hsop, hp]
          rw [hstep] at hok ⊢
          have hge := receive_calls_gt request callback rest (calls + 1)
            (log_status log r.status) (callback r.data_set user)
          have ih' := ih (calls + 1) _ _ hok
          intro p hp'
          obtain ⟨n, hn⟩ : ∃ n, (receive_loop request callback rest (calls + 1)
              (log_status log r.status) (callback r.data_set user)).receive_calls - calls
                = n + 1 := ⟨_, (Nat.sub_add_cancel (by omega)).symm⟩
          have hn' : (receive_loop request callback rest (calls + 1)
              (log_status log r.status) (callback r.data_set user)).receive_calls - (calls + 1)
                = n := by omega
          rw [hn, List.take_succ_cons] at hp'
          rw [hn'] at ih'
          rcases List.mem_cons.1 hp' with rfl | hmem
          · exact hid
          · exact ih' p hmem
        · have hstep : receive_loop request callback (r :: rest) calls log user =
              ⟨.ok (), rest, calls + 1, log_status log r.status, user⟩ := by
            rw [receive_loop]; simp [hid, hsop, hp]
          rw [hstep]
          intro p hp'
          simp only [Nat.add_sub_cancel_left, List.take_succ_cons, List.take_zero,
            List.mem_singleton] at hp'
          rw [hp']; exact hid
    · rw [receive_loop_bad_id request callback r rest calls log user hid] at hok
      simp at hok

end odil.FindSCU

namespace odil.FindSCU

theorem foldl_record {D : Type} (xs acc : List D) :
    xs.foldl (fun l d => record d l) acc = acc ++ xs := by
  induction xs generalizing acc with
  | nil => simp
  | cons x tl ih =>
    rw [List.foldl_cons, ih, record, List.append_assoc]
    rfl

/-- The run of `_find` is the loop on the association's inbox. -/
theorem find_run {D σ : Type} (scu : FindSCU D) (request : CFindRequest D)
    (callback : D → σ → σ) (user : σ) :
    (scu._find request callback user).run =
      receive_loop request callback scu._association.inbox
        scu._association.receive_calls [] user := rfl

/-- The SOP class check passes only on an absent UID or on the request's UID. -/
theorem matches_of_checks {D : Type} (request : CFindRequest D) (r : CFindResponse D)
    (hid : r.message_id_being_responded_to = request.message_id)
    (hsop : ¬ (r.has_affected_sop_class_uid &&
      r.get_affected_sop_class_uid != request.affected_sop_class_uid) = true) :
    matches_request request r := by
  refine ⟨hid, ?_⟩
  cases hu : r.affected_sop_class_uid with
  | none => exact Or.inl rfl
  | some uid =>
    refine Or.inr ?_
    by_contra hne
    exact hsop ((sop_check_true_iff request r).2 ⟨uid, hu, fun h => hne (by rw [h])⟩)

/-- The response at position `k` is received only if the `k` responses before it all
matched the request and were Pending. -/
theorem received_prefix {D σ : Type} (request : CFindRequest D) (callback : D → σ → σ)
    (inbox : List (CFindResponse D)) (calls : Nat) (log : List LogRecord) (user : σ)
    (k : Nat)
    (hk : calls + k < (receive_loop request callback inbox calls log user).receive_calls) :
    ∀ p ∈ inbox.take k, matches_request request p ∧ p.is_pending = true := by
  induction inbox generalizing calls log user k with
  | nil => simp
  | cons r rest ih =>
    cases k with
    | zero => simp
    | succ k =>
      by_cases hid : r.message_id_being_responded_to = request.message_id
      · by_cases hsop : (r.has_affected_sop_class_uid &&
            r.get_affected_sop_class_uid != request.affected_sop_class_uid) = true
        · obtain ⟨uid, hu, hne⟩ := (sop_check_true_iff request r).1 hsop
          rw [receive_loop_bad_sop request callback r rest calls log user hid uid hu hne] at hk
          simp only [] at hk
          omega
        · have hm := matches_of_checks request r hid hsop
          cases hp : r.is_pending
          · rw [receive_loop_final request callback r rest calls log user hm hp] at hk
            simp only [] at hk
            omega
          · rw [receive_loop_pending request callback r rest calls log user hm hp] at hk
            have ih' := ih (calls + 1) log (callback r.data_set user) k (by omega)
            intro p hp'
            rw [List.take_succ_cons] at hp'
            rcases List.mem_cons.1 hp' with rfl | hmem
            · exact ⟨hm, hp⟩
            · exact ih' p hmem
      · rw [receive_loop_bad_id request callback r rest calls log user hid] at hk
        simp only [] at hk
        omega

/-- A list cut at the position of one of its elements. -/
theorem split_at_index {α : Type} (l : List α) (k : Nat) (r : α) (h : l[k]? = some r) :
    l = l.take k ++ r :: l.drop (k + 1) := by
  obtain ⟨hlt, hr⟩ := List.getElem?_eq_some.1 h
  have hd : l.drop k = r :: l.drop (k + 1) := by
    rw [List.drop_eq_getElem_cons hlt, hr]
  rw [← hd, List.take_append_drop]

theorem length_take_of_index {α : Type} (l : List α) (k : Nat) (r : α)
    (h : l[k]? = some r) : (l.take k).length = k := by
  obtain ⟨hlt, -⟩ := List.getElem?_eq_some.1 h
  rw [List.length_take]
  omega

end odil.FindSCU

open odil.FindSCU

/-- C1: whatever the responses the association delivers, if the response `r` at position
`k` is received (more than `k` calls of `receive_message()` are made) and answers another
message id than the request's, then `_find` raises the "Unexpected Response MsgId"
exception, whatever the status of `r`: `r` is the last response received, the callback
has run on the `k` earlier responses only, not on `r`, and the responses after `r` stay
unreceived. Consequently a run of `_find`, and so a run of `find`, that returns normally
has only received responses whose MessageIDBeingRespondedTo is the request's MessageID. -/
theorem find_raises_on_unexpected_message_id {D σ : Type} (scu : FindSCU D)
    (request : CFindRequest D) (query : D) (callback : D → σ → σ) (user : σ) :
    (∀ (k : Nat) (r : CFindResponse D),
      scu._association.inbox[k]? = some r →
      scu._association.receive_calls + k <
        (scu._find request callback user).run.receive_calls →
      r.message_id_being_responded_to ≠ request.message_id →
        (scu._find request callback user).run.result =
          .error (Thrown.exception (unexpected_message_id
            r.message_id_being_responded_to request.message_id)) ∧
        (scu._find request callback user).run.user =
          (scu._association.inbox.take k).foldl (fun u p => callback p.data_set u) user ∧
        (scu._find request callback user).run.receive_calls =
          scu._association.receive_calls + k + 1 ∧
        (scu._find request callback user).association.inbox =
          scu._association.inbox.drop (k + 1)) ∧
    ((scu._find request callback user).run.result = .ok () →
      ∀ p ∈ received scu (scu._find request callback user),
        p.message_id_being_responded_to = request.message_id) ∧
    ((scu.find query callback user).run.result = .ok () →
      ∀ p ∈ received scu (scu.find query callback user),
        p.message_id_being_responded_to = (FindSCU.request scu query).message_id) := by
  refine ⟨?_, ?_, ?_⟩
  · intro k r hk hrecv hr
    have hpre := received_prefix request callback scu._association.inbox
      scu._association.receive_calls [] user k hrecv
    have hlen := length_take_of_index _ k r hk
    have hrun := find_run scu request callback user
    rw [split_at_index _ k r hk,
      receive_loop_prefix request callback _ (r :: _) _ [] user hpre,
      receive_loop_bad_id request callback r _ _ [] _ hr, hlen] at hrun
    have hassoc : (scu._find request callback user).association.inbox =
        (scu._find request callback user).run.inbox := rfl
    rw [hassoc, hrun]
    exact ⟨rfl, rfl, rfl, rfl⟩
  · intro hok
    rw [find_run] at hok
    have h := receive_loop_ok_ids request callback _ _ [] user hok
    unfold received
    rw [find_run]
    exact h
  · intro hok
    exact receive_loop_ok_ids (FindSCU.request scu query) callback
      scu._association.inbox scu._association.receive_calls [] user hok

/-- Witness for C1: a Pending response, then a response to message 2, then Success. -/
theorem find_raises_on_unexpected_message_id_witness :
    ((Sample.scu [Sample.pending_1, Sample.stray, Sample.success])._find
        Sample.request record []).run.result =
      .error (Thrown.exception (unexpected_message_id 2 1)) ∧
    ((Sample.scu [Sample.pending_1, Sample.stray, Sample.success])._find
        Sample.request record []).run.user = [Sample.match_1] ∧
    ((Sample.scu [Sample.pending_1, Sample.stray, Sample.success])._find
        Sample.request record []).run.receive_calls = 2 ∧
    ((Sample.scu [Sample.pending_1, Sample.stray, Sample.success])._find
        Sample.request record []).association.inbox = [Sample.success] :=
  (find_raises_on_unexpected_message_id
      (Sample.scu [Sample.pending_1, Sample.stray, Sample.success])
      Sample.request Sample.query record []).1
    1 Sample.stray rfl (by decide) (by decide)

/-- C2: whatever the responses the association delivers, if the response `r` at position
`k` is received (more than `k` calls of `receive_message()` are made) and carries the
request's message id, then `_find` raises an Exception at `r` (the run ends with an
Exception right after reception `k + 1`) if and only if `r` has an AffectedSOPClassUID and
it differs from the request's; a response without AffectedSOPClassUID never ends the run
with an error at that response; and when the check fails the exception is the "Unexpected
Response Affected SOP Class UID" one, the callback has run on the `k` earlier responses
only, not on `r`, and the responses after `r` stay unreceived. -/
theorem find_raises_iff_unexpected_sop_class {D σ : Type} (scu : FindSCU D)
    (request : CFindRequest D) (callback : D → σ → σ) (user : σ)
    (k : Nat) (r : CFindResponse D)
    (hk : scu._association.inbox[k]? = some r)
    (hrecv : scu._association.receive_calls + k <
      (scu._find request callback user).run.receive_calls)
    (hid : r.message_id_being_responded_to = request.message_id) :
    ((∃ e, (scu._find request callback user).run.result = .error (Thrown.exception e) ∧
        (scu._find request callback user).run.receive_calls =
          scu._association.receive_calls + k + 1) ↔
      (∃ uid, r.affected_sop_class_uid = some uid ∧ uid ≠ request.affected_sop_class_uid)) ∧
    (r.affected_sop_class_uid = none →
      ¬ (∃ e, (scu._find request callback user).run.result = .error e ∧
        (scu._find request callback user).run.receive_calls =
          scu._association.receive_calls + k + 1)) ∧
    (∀ uid, r.affected_sop_class_uid = some uid → uid ≠ request.affected_sop_class_uid →
      (scu._find request callback user).run.result =
        .error (Thrown.exception (unexpected_sop_class uid request.affected_sop_class_uid)) ∧
      (scu._find request callback user).run.user =
        (scu._association.inbox.take k).foldl (fun u p => callback p.data_set u) user ∧
      (scu._find request callback user).run.receive_calls =
        scu._association.receive_calls + k + 1 ∧
      (scu._find request callback user).association.inbox =
        scu._association.inbox.drop (k + 1)) := by
  have hassoc : (scu._find request callback user).association.inbox =
      (scu._find request callback user).run.inbox := rfl
  have hpre := received_prefix request callback scu._association.inbox
    scu._association.receive_calls [] user k hrecv
  have hlen := length_take_of_index _ k r hk
  have hrun := find_run scu request callback user
  rw [split_at_index _ k r hk,
    receive_loop_prefix request callback _ (r :: _) _ [] user hpre, hlen] at hrun
  -- the run when `r` passes the SOP class check
  have hpass : (r.affected_sop_class_uid = none ∨
      r.affected_sop_class_uid = some request.affected_sop_class_uid) →
      ¬ (∃ e, (scu._find request callback user).run.result = .error e ∧
        (scu._find request callback user).run.receive_calls =
          scu._association.receive_calls + k + 1) := by
    intro hsop
    have hm : matches_request request r := ⟨hid, hsop⟩
    cases hp : r.is_pending
    · rw [receive_loop_final request callback r _ _ [] _ hm hp] at hrun
      rw [hrun]
      rintro ⟨e, he, -⟩
      cases he
    · rw [receive_loop_pending request callback r _ _ [] _ hm hp] at hrun
      have hge := receive_calls_gt request callback
        (scu._association.inbox.drop (k + 1))
        (scu._association.receive_calls + k + 1) []
        (callback r.data_set
          ((scu._association.inbox.take k).foldl (fun u p => callback p.data_set u) user))
      rw [← hrun] at hge
      rintro ⟨e, -, he⟩
      omega
  have hfail : ∀ uid, r.affected_sop_class_uid = some uid →
      uid ≠ request.affected_sop_class_uid →
      (scu._find request callback user).run.result =
        .error (Thrown.exception (unexpected_sop_class uid request.affected_sop_class_uid)) ∧
      (scu._find request callback user).run.user =
        (scu._association.inbox.take k).foldl (fun u p => callback p.data_set u) user ∧
      (scu._find request callback user).run.receive_calls =
        scu._association.receive_calls + k + 1 ∧
      (scu._find request callback user).association.inbox =
        scu._association.inbox.drop (k + 1) := by
    intro uid hu hne
    rw [receive_loop_bad_sop request callback r _ _ [] _ hid uid hu hne] at hrun
    rw [hassoc, hrun]
    exact ⟨rfl, rfl, rfl, rfl⟩
  refine ⟨⟨?_, ?_⟩, fun hnone => hpass (Or.inl hnone), hfail⟩
  · rintro ⟨e, he, hc⟩
    by_contra hno
    have hsop : r.affected_sop_class_uid = none ∨
        r.affected_sop_class_uid = some request.affected_sop_class_uid := by
      cases hu : r.affected_sop_class_uid with
      | none => exact Or.inl rfl
      | some uid =>
        refine Or.inr ?_
        by_contra hne
        exact hno ⟨uid, hu, fun h => hne (by rw [h])⟩
    exact hpass hsop ⟨_, he, hc⟩
  · rintro ⟨uid, hu, hne⟩
    exact ⟨_, (hfail uid hu hne).1, (hfail uid hu hne).2.2.1⟩

/-- Witness for C2: a Pending response, then a response with the Verification SOP class. -/
theorem find_raises_iff_unexpected_sop_class_witness :
    ((Sample.scu [Sample.pending_1, Sample.other_class, Sample.success])._find
        Sample.request record []).run.result =
      .error (Thrown.exception
        (unexpected_sop_class "1.2.840.10008.1.1" Sample.sop_class)) ∧
    ((Sample.scu [Sample.pending_1, Sample.other_class, Sample.success])._find
        Sample.request record []).run.user = [Sample.match_1] ∧
    ((Sample.scu [Sample.pending_1, Sample.other_class, Sample.success])._find
        Sample.request record []).run.receive_calls = 2 ∧
    ((Sample.scu [Sample.pending_1, Sample.other_class, Sample.success])._find
        Sample.request record []).association.inbox = [Sample.success] :=
  (find_raises_iff_unexpected_sop_class
      (Sample.scu [Sample.pending_1, Sample.other_class, Sample.success])
      Sample.request record [] 1 Sample.other_class
      rfl (by decide) rfl).2.2 "1.2.840.10008.1.1" rfl (by decide)

/-- C3: when the association delivers `n` Pending responses followed by one response that
is not Pending, all matching the request built by `find` (message id and SOP class),
`find(query, callback)` returns normally after `n + 1` receptions and has applied the
callback to the data sets of the Pending responses, one after the other in the order
received: the final callback state is the fold of the callback over these `n` data
sets, and a recording callback ends with exactly this list of `n` data sets. -/
theorem find_invokes_callback_per_pending {D σ : Type} (scu : FindSCU D) (query : D)
    (callback : D → σ → σ) (user : σ)
    (pendings : List (CFindResponse D)) (final : CFindResponse D)
    (hinbox : scu._association.inbox = pendings ++ [final])
    (hmatch : ∀ r ∈ pendings ++ [final], matches_request (request scu query) r)
    (hpending : ∀ r ∈ pendings, r.is_pending = true)
    (hfinal : final.is_pending = false) :
    (scu.find query callback user).run.result = .ok () ∧
    (scu.find query callback user).run.user =
      (pendings.map (fun r => r.data_set)).foldl (fun u d => callback d u) user ∧
    (scu.find query record []).run.user = pendings.map (fun r => r.data_set) ∧
    ((scu.find query record []).run.user).length = pendings.length ∧
    (scu.find query callback user).run.receive_calls =
      scu._association.receive_calls + pendings.length + 1 ∧
    (scu.find query callback user).association.inbox = [] := by
  have hpre : ∀ p ∈ pendings,
      matches_request (request scu query) p ∧ p.is_pending = true :=
    fun p hp => ⟨hmatch p (List.mem_append_left _ hp), hpending p hp⟩
  have hm : matches_request (request scu query) final :=
    hmatch final (List.mem_append_right _ (List.mem_singleton_self _))
  have key : ∀ (τ : Type) (cb : D → τ → τ) (u : τ),
      (scu.find query cb u).run =
        ⟨.ok (), [], scu._association.receive_calls + pendings.length + 1,
          log_status [] final.status,
          pendings.foldl (fun u p => cb p.data_set u) u⟩ := by
    intro τ cb u
    have hrun : (scu.find query cb u).run =
        receive_loop (request scu query) cb scu._association.inbox
          scu._association.receive_calls [] u := rfl
    rw [hrun, hinbox, receive_loop_prefix (request scu query) cb pendings [final] _ [] u hpre,
      receive_loop_final (request scu query) cb final [] _ [] _ hm hfinal]
  have hassoc : (scu.find query callback user).association.inbox =
      (scu.find query callback user).run.inbox := rfl
  have hrec : (scu.find query record []).run.user = pendings.map (fun r => r.data_set) := by
    have h := foldl_record (pendings.map (fun r => r.data_set)) []
    rw [List.foldl_map, List.nil_append] at h
    rw [key]
    exact h
  rw [hassoc, hrec, key, List.foldl_map]
  exact ⟨rfl, rfl, rfl, by simp, rfl, rfl⟩

/-- Witness for C3: two Pending responses then Success give two invocations, in order. -/
theorem find_invokes_callback_per_pending_witness :
    ((Sample.scu [Sample.pending_1, Sample.pending_2, Sample.success]).find
        Sample.query record []).run.result = .ok () ∧
    ((Sample.scu [Sample.pending_1, Sample.pending_2, Sample.success]).find
        Sample.query record []).run.user = [Sample.match_1, Sample.match_2] ∧
    ((Sample.scu [Sample.pending_1, Sample.pending_2, Sample.success]).find
        Sample.query record []).run.receive_calls = 3 :=
  have h := find_invokes_callback_per_pending
    (Sample.scu [Sample.pending_1, Sample.pending_2, Sample.success]) Sample.query
    record [] [Sample.pending_1, Sample.pending_2] Sample.success rfl
    (by decide) (by decide) rfl
  ⟨h.1, h.2.2.1, h.2.2.2.2.1⟩

/-- C4: when the responses before `r` all matched the request and were Pending, and `r`
(at position `k = pre.length` of the stream) matches the request and is not Pending,
`_find` returns normally whatever the status of `r` (Success, Warning, Failure, Cancel):
no error is raised, the callback has run on the earlier responses only, the status is
only logged, `receive_message()` has been called exactly `k + 1` times and the responses
after `r` are left unreceived. -/
theorem find_returns_on_first_non_pending {D σ : Type} (scu : FindSCU D)
    (request : CFindRequest D) (callback : D → σ → σ) (user : σ)
    (pre : List (CFindResponse D)) (r : CFindResponse D) (post : List (CFindResponse D))
    (hinbox : scu._association.inbox = pre ++ r :: post)
    (hpre : ∀ p ∈ pre, matches_request request p ∧ p.is_pending = true)
    (hm : matches_request request r)
    (hfinal : r.is_pending = false) :
    (scu._find request callback user).run.result = .ok () ∧
    (scu._find request callback user).run.user =
      pre.foldl (fun u p => callback p.data_set u) user ∧
    (scu._find request callback user).run.log = log_status [] r.status ∧
    (scu._find request callback user).association.receive_calls =
      scu._association.receive_calls + pre.length + 1 ∧
    (scu._find request callback user).association.inbox = post := by
  have hassoc : (scu._find request callback user).association.inbox =
      (scu._find request callback user).run.inbox := rfl
  have hcalls : (scu._find request callback user).association.receive_calls =
      (scu._find request callback user).run.receive_calls := rfl
  have hrun := find_run scu request callback user
  rw [hinbox, receive_loop_prefix request callback pre (r :: post) _ [] user hpre,
    receive_loop_final request callback r post _ [] _ hm hfinal] at hrun
  rw [hassoc, hcalls, hrun]
  exact ⟨rfl, rfl, rfl, rfl, rfl⟩

/-- Witness for C4: a Pending response, then a Failure response (status 0xA700), then a
further response that stays unreceived. -/
theorem find_returns_on_first_non_pending_witness :
    ((Sample.scu [Sample.pending_1, Sample.failure, Sample.pending_2])._find
        Sample.request record []).run.result = .ok () ∧
    ((Sample.scu [Sample.pending_1, Sample.failure, Sample.pending_2])._find
        Sample.request record []).run.user = [Sample.match_1] ∧
    ((Sample.scu [Sample.pending_1, Sample.failure, Sample.pending_2])._find
        Sample.request record []).association.receive_calls = 2 ∧
    ((Sample.scu [Sample.pending_1, Sample.failure, Sample.pending_2])._find
        Sample.request record []).association.inbox = [Sample.pending_2] :=
  have h := find_returns_on_first_non_pending
    (Sample.scu [Sample.pending_1, Sample.failure, Sample.pending_2])
    Sample.request record [] [Sample.pending_1] Sample.failure [Sample.pending_2]
    rfl (by decide) (by decide) rfl
  ⟨h.1, h.2.1, h.2.2.2.1, h.2.2.2.2⟩

/-- Counterexample to C5: the peer delivers a Warning response (status 0xB000, matching
message id and SOP class) and then a Pending one. `_find` returns normally after a
single `receive_message()` call; the second response is never received and the callback
never runs. -/
theorem find_warning_continues_counterexample :
    Response.is_warning Sample.warning.status = true ∧
    matches_request Sample.request Sample.warning ∧
    ((Sample.scu [Sample.warning, Sample.pending_2])._find
        Sample.request record []).run.result = .ok () ∧
    ((Sample.scu [Sample.warning, Sample.pending_2])._find
        Sample.request record []).association.receive_calls = 1 ∧
    ((Sample.scu [Sample.warning, Sample.pending_2])._find
        Sample.request record []).association.inbox = [Sample.pending_2] ∧
    ((Sample.scu [Sample.warning, Sample.pending_2])._find
        Sample.request record []).run.user = [] :=
  ⟨by decide, by decide, rfl, rfl, rfl, rfl⟩

/-- C5 (amended): in the receive loop, a response with a Warning status (matching message
id and SOP class, the earlier responses being matching Pending ones) is logged with
severity warning and raises no error; a Warning status is not Pending, so the loop ends
there: `_find` returns normally without receiving the next response and without
invoking the callback for the Warning response. -/
theorem find_warning_logged_and_returns {D σ : Type} (scu : FindSCU D)
    (request : CFindRequest D) (callback : D → σ → σ) (user : σ)
    (pre : List (CFindResponse D)) (r : CFindResponse D) (post : List (CFindResponse D))
    (hinbox : scu._association.inbox = pre ++ r :: post)
    (hpre : ∀ p ∈ pre, matches_request request p ∧ p.is_pending = true)
    (hm : matches_request request r)
    (hwarning : Response.is_warning r.status = true) :
    (scu._find request callback user).run.log =
      [⟨Severity.warning, "C-FIND response status: " ++ toString r.status⟩] ∧
    (scu._find request callback user).run.result = .ok () ∧
    (scu._find request callback user).run.receive_calls =
      scu._association.receive_calls + pre.length + 1 ∧
    (scu._find request callback user).run.inbox = post ∧
    (scu._find request callback user).run.user =
      pre.foldl (fun u p => callback p.data_set u) user := by
  have hfinal : r.is_pending = false := is_warning_not_pending r.status hwarning
  have hrun := find_run scu request callback user
  rw [hinbox, receive_loop_prefix request callback pre (r :: post) _ [] user hpre,
    receive_loop_final request callback r post _ [] _ hm hfinal,
    log_status_warning [] r.status hwarning] at hrun
  rw [hrun]
  exact ⟨rfl, rfl, rfl, rfl, rfl⟩

/-- Witness for the amended C5: a Warning response followed by a Pending one. -/
theorem find_warning_logged_and_returns_witness :
    ((Sample.scu [Sample.warning, Sample.pending_2])._find
        Sample.request record []).run.log.map (fun l => l.severity) = [Severity.warning] ∧
    ((Sample.scu [Sample.warning, Sample.pending_2])._find
        Sample.request record []).run.inbox = [Sample.pending_2] :=
  have h := find_warning_logged_and_returns (Sample.scu [Sample.warning, Sample.pending_2])
    Sample.request record [] [] Sample.warning [Sample.pending_2]
    rfl (by decide) (by decide) (by decide)
  ⟨by rw [h.1]; rfl, h.2.2.2.1⟩

/-! ## The example response generator -/

namespace FindGenerator

theorem get_snd (g : FindGenerator) : (get g).2 = g := by
  unfold get
  split
  · rfl
  · split <;> rfl
  · split <;> rfl
  · rfl

/-- What holds of every reachable generator: `_request` is the request last passed to the
initialisation method, it is set as soon as the state is not `NotInitialized`, and in
state `Pending` the iterator designates an element of `_responses`. -/
theorem reachable_invariant (last : Option (CFindRequest Identifier)) (g : FindGenerator)
    (h : Reachable last g) :
    g._request = last ∧
    (g._state ≠ State.NotInitialized → ∃ request, last = some request) ∧
    (g._state = State.Pending → g._response_iterator < g._responses.length) := by
  induction h with
  | create => exact ⟨rfl, fun h => absurd rfl h, fun h => by cases h⟩
  | init as_vr last g request _ _ =>
    refine ⟨rfl, fun _ => ⟨request, rfl⟩, fun _ => ?_⟩
    simp [ FindGenerator.initialize]
  | get last g _ ih => rw [get_snd]; exact ih
  | next last g _ ih =>
    obtain ⟨h₁, h₂, h₃⟩ := ih
    unfold next
    split
    · exact ⟨h₁, h₂, h₃⟩
    · rename_i hs
      split
      · split
        · exact ⟨h₁, fun _ => h₂ (by rw [hs]; decide), fun h => by cases h⟩
        · exact ⟨h₁, fun _ => h₂ (by rw [hs]; decide), fun _ => by simp only []; omega⟩
      · exact ⟨h₁, h₂, h₃⟩
    · rename_i hs
      exact ⟨h₁, fun _ => h₂ (by rw [hs]; decide), fun h => by cases h⟩
    · exact ⟨h₁, h₂, h₃⟩

end FindGenerator

open FindGenerator

/-- C6: the SCP loop on a fresh generator (initialise with the request; while not done:
get, send, next) ends normally after exactly three iterations whenever it is given room
for four tests of `done()` (with three it is still running); it has sent, in this order,
a Pending response with identifier PatientName "Hello^World", PatientID "1234", a Pending
response with identifier PatientName "Doe^John", PatientID "5678", and a Success response
without data set, all answering the request's message id; `done()` is true afterwards. -/
theorem generator_serves_two_pending_then_success (as_vr : Tag → VR)
    (request : CFindRequest Identifier) (fuel : Nat) :
    (∃ g, serve (fuel + 4) as_vr request =
        some ⟨.returned (), g,
          [⟨request.message_id, Response.Pending, none, some (data_set_1 as_vr)⟩,
           ⟨request.message_id, Response.Pending, none, some (data_set_2 as_vr)⟩,
           ⟨request.message_id, Response.Success, none, none⟩], 3⟩ ∧
      g.done = true) ∧
    serve 3 as_vr request = none ∧
    (data_set_1 as_vr).iterate =
      [(registry.PatientName, ⟨Value.Strings ["Hello^World"], as_vr registry.PatientName⟩),
       (registry.PatientID, ⟨Value.Strings ["1234"], as_vr registry.PatientID⟩)] ∧
    (data_set_2 as_vr).iterate =
      [(registry.PatientName, ⟨Value.Strings ["Doe^John"], as_vr registry.PatientName⟩),
       (registry.PatientID, ⟨Value.Strings ["5678"], as_vr registry.PatientID⟩)] ∧
    (data_set_1 as_vr).as_string registry.PatientName = .ok ["Hello^World"] ∧
    (data_set_1 as_vr).as_string registry.PatientID = .ok ["1234"] ∧
    (data_set_2 as_vr).as_string registry.PatientName = .ok ["Doe^John"] ∧
    (data_set_2 as_vr).as_string registry.PatientID = .ok ["5678"] :=
  ⟨⟨⟨some request, State.Done, [data_set_1 as_vr, data_set_2 as_vr], 2⟩, rfl, rfl⟩,
    rfl, rfl, rfl, rfl, rfl, rfl, rfl⟩

/-- C7: for every generator reachable from the constructor, `last` being the request
passed to the most recent initialisation: `get()` raises an Exception if and only if the
state is NotInitialized or Done; in state Pending it returns a response with status
Pending that carries the identifier the iterator designates; in state Final it returns a
response with status Success and no data set; in both cases MessageIDBeingRespondedTo is
the MessageID of `last`; and `get()` leaves the generator as it was. -/
theorem generator_get_by_state (last : Option (CFindRequest Identifier))
    (g : FindGenerator) (h : Reachable last g) :
    ((∃ e, (FindGenerator.get g).1 = .raised e) ↔
      (g._state = State.NotInitialized ∨ g._state = State.Done)) ∧
    (g._state = State.Pending →
      ∃ request data_set, last = some request ∧
        g._responses[g._response_iterator]? = some data_set ∧
        (FindGenerator.get g).1 = .returned
          ⟨request.message_id, Response.Pending, none, some data_set⟩) ∧
    (g._state = State.Final →
      ∃ request, last = some request ∧
        (FindGenerator.get g).1 = .returned ⟨request.message_id, Response.Success, none, none⟩) ∧
    (FindGenerator.get g).2 = g := by
  obtain ⟨hreq, hset, hcur⟩ := reachable_invariant last g h
  have hpending : g._state = State.Pending →
      ∃ request data_set, last = some request ∧
        g._responses[g._response_iterator]? = some data_set ∧
        (FindGenerator.get g).1 = .returned
          ⟨request.message_id, Response.Pending, none, some data_set⟩ := by
    intro hs
    obtain ⟨request, hl⟩ := hset (by rw [hs]; decide)
    have hlt := hcur hs
    refine ⟨request, g._responses[g._response_iterator], hl,
      List.getElem?_eq_getElem hlt, ?_⟩
    unfold FindGenerator.get
    rw [hs, hreq, hl]
    simp only [List.getElem?_eq_getElem hlt]
  have hfinal : g._state = State.Final →
      ∃ request, last = some request ∧
        (FindGenerator.get g).1 = .returned ⟨request.message_id, Response.Success, none, none⟩ := by
    intro hs
    obtain ⟨request, hl⟩ := hset (by rw [hs]; decide)
    refine ⟨request, hl, ?_⟩
    unfold FindGenerator.get
    rw [hs, hreq, hl]
  refine ⟨⟨?_, ?_⟩, hpending, hfinal, FindGenerator.get_snd g⟩
  · rintro ⟨e, he⟩
    cases hs : g._state with
    | NotInitialized => exact Or.inl rfl
    | Done => exact Or.inr rfl
    | Pending =>
      obtain ⟨_, _, _, _, hget⟩ := hpending hs
      rw [hget] at he; cases he
    | Final =>
      obtain ⟨_, _, hget⟩ := hfinal hs
      rw [hget] at he; cases he
  · rintro (hs | hs)
    · exact ⟨⟨"Find generator not initialized"⟩, by unfold FindGenerator.get; rw [hs]⟩
    · exact ⟨⟨"Generator is finished"⟩, by unfold FindGenerator.get; rw [hs]⟩

/-- Witness for C7: the generator right after its initialisation with the sample request
is in state Pending, and `get()` does not change it. -/
theorem generator_get_by_state_witness :
    Reachable (some Sample.request)
      ( FindGenerator.initialize (fun _ => VR.UNKNOWN) create Sample.request) ∧
    (FindGenerator.get ( FindGenerator.initialize (fun _ => VR.UNKNOWN) create Sample.request)).2 =
      FindGenerator.initialize (fun _ => VR.UNKNOWN) create Sample.request :=
  ⟨Reachable.init _ none create Sample.request Reachable.create,
   (generator_get_by_state (some Sample.request)
      ( FindGenerator.initialize (fun _ => VR.UNKNOWN) create Sample.request)
      (Reachable.init _ none create Sample.request Reachable.create)).2.2.2⟩

/-- C8: for every generator reachable from the constructor: `next()` in state Pending
moves the iterator forward by one identifier, stays Pending when an identifier remains and
moves to Final exactly when the iterator reaches the end of the response list; `next()`
in state Final moves to Done and changes nothing else; `next()` in state NotInitialized or
Done raises an Exception and leaves the generator (state and iterator) as it was. -/
theorem generator_next_by_state (last : Option (CFindRequest Identifier))
    (g : FindGenerator) (h : Reachable last g) :
    (g._state = State.Pending →
      (next g).1 = .returned () ∧
      (next g).2._response_iterator = g._response_iterator + 1 ∧
      (next g).2._responses = g._responses ∧
      (g._response_iterator + 1 < g._responses.length →
        (next g).2._state = State.Pending) ∧
      ((next g).2._state = State.Final ↔
        g._response_iterator + 1 = g._responses.length) ∧
      ((next g).2._state = State.Pending ∨ (next g).2._state = State.Final)) ∧
    (g._state = State.Final →
      (next g).1 = .returned () ∧ (next g).2 = { g with _state := State.Done }) ∧
    (g._state = State.NotInitialized ∨ g._state = State.Done →
      (∃ e, (next g).1 = .raised e) ∧ (next g).2 = g) := by
  obtain ⟨-, -, hcur⟩ := reachable_invariant last g h
  refine ⟨?_, ?_, ?_⟩
  · intro hs
    have hlt := hcur hs
    by_cases hend : g._response_iterator + 1 = g._responses.length
    · have hn : next g = (.returned (),
          { g with _response_iterator := g._response_iterator + 1,
                   _state := State.Final }) := by
        unfold next; rw [hs]; simp only [if_pos hlt, if_pos hend]
      rw [hn]
      exact ⟨rfl, rfl, rfl, fun hc => absurd hc (by omega), ⟨fun _ => hend, fun _ => rfl⟩,
        Or.inr rfl⟩
    · have hn : next g = (.returned (),
          { g with _response_iterator := g._response_iterator + 1 }) := by
        unfold next; rw [hs]; simp only [if_pos hlt, if_neg hend]
      rw [hn]
      refine ⟨rfl, rfl, rfl, fun _ => hs, ⟨fun hc => ?_, fun hc => absurd hc hend⟩, Or.inl hs⟩
      have hc' : g._state = State.Final := hc
      rw [hs] at hc'; cases hc'
  · intro hs
    unfold next
    rw [hs]
    exact ⟨rfl, rfl⟩
  · rintro (hs | hs)
    · unfold next; rw [hs]
      exact ⟨⟨_, rfl⟩, rfl⟩
    · unfold next; rw [hs]
      exact ⟨⟨_, rfl⟩, rfl⟩

/-- Witness for C8: after initialisation, the first `next()` stays Pending with the
iterator on the second identifier; the second `next()` reaches Final. -/
theorem generator_next_by_state_witness :
    (next ( FindGenerator.initialize (fun _ => VR.UNKNOWN) create Sample.request)).2._state
      = State.Pending ∧
    (next ( FindGenerator.initialize (fun _ => VR.UNKNOWN) create Sample.request)
      ).2._response_iterator = 1 ∧
    (next (next ( FindGenerator.initialize (fun _ => VR.UNKNOWN) create Sample.request)).2
      ).2._state = State.Final :=
  have h₁ := (generator_next_by_state (some Sample.request)
    ( FindGenerator.initialize (fun _ => VR.UNKNOWN) create Sample.request)
    (Reachable.init _ none create Sample.request Reachable.create)).1 rfl
  have h₂ := (generator_next_by_state (some Sample.request)
    (next ( FindGenerator.initialize (fun _ => VR.UNKNOWN) create Sample.request)).2
    (Reachable.next _ _
      (Reachable.init _ none create Sample.request Reachable.create))).1 rfl
  ⟨h₁.2.2.2.1 (by decide), h₁.2.1, h₂.2.2.2.2.1.2 rfl⟩

/-- C9: `done()` returns true if and only if the state is Done: it is false in states
NotInitialized, Pending and Final, whatever the other members hold, so a freshly
constructed generator is not done, and a generator in state Final (whose Success response
is still to be sent) is not done. -/
theorem generator_done_iff_state_done (g : FindGenerator) :
    (done g = true ↔ g._state = State.Done) ∧
    done g = decide (g._state = State.Done) ∧
    done { g with _state := State.NotInitialized } = false ∧
    done { g with _state := State.Pending } = false ∧
    done { g with _state := State.Final } = false ∧
    done { g with _state := State.Done } = true ∧
    done create = false := by
  refine ⟨?_, ?_, rfl, rfl, rfl, rfl, rfl⟩
  · cases hs : g._state <;> simp [done, hs]
  · cases hs : g._state <;> simp [done, hs]

/-! ## `FindSCU::find(query)` against the callback variant -/

namespace odil.FindSCU

/-- The loop run with any callback and the loop run with the recording callback end the
same way, after the same receptions and log records; the recording run appends a list of
data sets to its accumulator, and the other run has folded its callback over that very
list. -/
theorem receive_loop_record {D σ : Type} (request : CFindRequest D) (callback : D → σ → σ)
    (inbox : List (CFindResponse D)) (calls : Nat) (log : List LogRecord) (user : σ)
    (acc : List D) :
    (receive_loop request callback inbox calls log user).result =
      (receive_loop request record inbox calls log acc).result ∧
    (receive_loop request callback inbox calls log user).inbox =
      (receive_loop request record inbox calls log acc).inbox ∧
    (receive_loop request callback inbox calls log user).receive_calls =
      (receive_loop request record inbox calls log acc).receive_calls ∧
    (receive_loop request callback inbox calls log user).log =
      (receive_loop request record inbox calls log acc).log ∧
    ∃ l, (receive_loop request record inbox calls log acc).user = acc ++ l ∧
      (receive_loop request callback inbox calls log user).user =
        l.foldl (fun u d => callback d u) user := by
  induction inbox generalizing calls log user acc with
  | nil => exact ⟨rfl, rfl, rfl, rfl, [], by simp [receive_loop], rfl⟩
  | cons r rest ih =>
    by_cases hid : r.message_id_being_responded_to = request.message_id
    · by_cases hsop : (r.has_affected_sop_class_uid &&
          r.get_affected_sop_class_uid != request.affected_sop_class_uid) = true
      · obtain ⟨uid, hu, hne⟩ := (sop_check_true_iff request r).1 hsop
        rw [receive_loop_bad_sop request callback r rest calls log user hid uid hu hne,
          receive_loop_bad_sop request record r rest calls log acc hid uid hu hne]
        exact ⟨rfl, rfl, rfl, rfl, [], by simp, rfl⟩
      · have hm := matches_of_checks request r hid hsop
        cases hp : r.is_pending
        · rw [receive_loop_final request callback r rest calls log user hm hp,
            receive_loop_final request record r rest calls log acc hm hp]
          exact ⟨rfl, rfl, rfl, rfl, [], by simp, rfl⟩
        · rw [receive_loop_pending request callback r rest calls log user hm hp,
            receive_loop_pending request record r rest calls log acc hm hp]
          obtain ⟨h₁, h₂, h₃, h₄, l, hl, hf⟩ :=
            ih (calls + 1) log (callback r.data_set user) (record r.data_set acc)
          refine ⟨h₁, h₂, h₃, h₄, r.data_set :: l, ?_, ?_⟩
          · rw [hl, record, List.append_assoc]; rfl
          · rw [hf]; rfl
    · rw [receive_loop_bad_id request callback r rest calls log user hid,
        receive_loop_bad_id request record r rest calls log acc hid]
      exact ⟨rfl, rfl, rfl, rfl, [], by simp, rfl⟩

/-- The run of `find` is the loop on the association's inbox, for the request it builds. -/
theorem find_callback_run {D σ : Type} (scu : FindSCU D) (query : D)
    (callback : D → σ → σ) (user : σ) :
    (scu.find query callback user).run =
      receive_loop (request scu query) callback scu._association.inbox
        scu._association.receive_calls [] user := rfl

/-- What `find(query)` returns, in terms of the run of the callback variant with the
recording callback. -/
theorem find_data_sets_fst {D : Type} (scu : FindSCU D) (query : D) :
    (find_data_sets scu query).1 =
      match (scu.find query record []).run.result with
      | .ok () => .ok (scu.find query record []).run.user
      | .error e => .error e := by
  unfold find_data_sets
  split <;> rfl

theorem find_data_sets_snd {D : Type} (scu : FindSCU D) (query : D) :
    (find_data_sets scu query).2 = (scu.find query record []).association := by
  unfold find_data_sets
  split <;> rfl

end odil.FindSCU

/-- C11: on the same association and response stream, `find(query)` (the variant without
callback) raises exactly when `find(query, callback)` raises, with the same exception,
and otherwise returns the list of data sets over which the callback variant has folded
its callback, in the order received; both leave the association in the same state. When
the stream is made of matching Pending responses followed by a matching response that is
not Pending, the list returned is the list of the data sets of these Pending responses,
and it is empty when the first response is not Pending. -/
theorem find_without_callback_refines_callback_variant {D σ : Type} (scu : FindSCU D)
    (query : D) (callback : D → σ → σ) (user : σ) :
    (∀ e, (scu.find query callback user).run.result = .error e →
      (find_data_sets scu query).1 = .error e) ∧
    ((scu.find query callback user).run.result = .ok () →
      ∃ l, (find_data_sets scu query).1 = .ok l ∧
        (scu.find query callback user).run.user =
          l.foldl (fun u d => callback d u) user) ∧
    (∀ l, (find_data_sets scu query).1 = .ok l →
      (scu.find query callback user).run.result = .ok () ∧
      (scu.find query callback user).run.user =
        l.foldl (fun u d => callback d u) user) ∧
    (find_data_sets scu query).2 = (scu.find query callback user).association ∧
    (∀ (pendings : List (CFindResponse D)) (final : CFindResponse D)
        (post : List (CFindResponse D)),
      scu._association.inbox = pendings ++ final :: post →
      (∀ r ∈ pendings, matches_request (request scu query) r ∧ r.is_pending = true) →
      matches_request (request scu query) final → final.is_pending = false →
        (find_data_sets scu query).1 = .ok (pendings.map (fun r => r.data_set))) ∧
    (∀ (final : CFindResponse D) (post : List (CFindResponse D)),
      scu._association.inbox = final :: post →
      matches_request (request scu query) final → final.is_pending = false →
        (find_data_sets scu query).1 = .ok []) := by
  obtain ⟨hres, hinb, hcalls, -, l, hl, hfold⟩ :=
    receive_loop_record (request scu query) callback scu._association.inbox
      scu._association.receive_calls [] user []
  rw [← find_callback_run scu query callback user,
    ← find_callback_run scu query record []] at hres hinb hcalls
  rw [← find_callback_run scu query record []] at hl
  rw [← find_callback_run scu query callback user] at hfold
  rw [List.nil_append] at hl
  have hfst := find_data_sets_fst scu query
  -- the stream of matching Pending responses closed by a response that is not Pending
  have hstream : ∀ (pendings : List (CFindResponse D)) (final : CFindResponse D)
      (post : List (CFindResponse D)),
      scu._association.inbox = pendings ++ final :: post →
      (∀ r ∈ pendings, matches_request (request scu query) r ∧ r.is_pending = true) →
      matches_request (request scu query) final → final.is_pending = false →
      (find_data_sets scu query).1 = .ok (pendings.map (fun r => r.data_set)) := by
    intro pendings final post hinbox hpre hm hfinal
    have hrun := find_callback_run scu query record []
    rw [hinbox, receive_loop_prefix (request scu query) record pendings (final :: post)
        _ [] [] hpre,
      receive_loop_final (request scu query) record final post _ [] _ hm hfinal] at hrun
    have hrec := foldl_record (pendings.map (fun r => r.data_set)) []
    rw [List.foldl_map, List.nil_append] at hrec
    rw [hfst, hrun]
    simp only []
    rw [hrec]
  refine ⟨?_, ?_, ?_, ?_, hstream, ?_⟩
  · intro e he
    rw [hres] at he
    rw [hfst, he]
  · intro hok
    rw [hres] at hok
    refine ⟨l, ?_, hfold⟩
    rw [hfst, hok]
    simp only []
    rw [hl]
  · intro l' hl'
    rw [hfst] at hl'
    cases hr : (scu.find query record []).run.result with
    | error e => rw [hr] at hl'; cases hl'
    | ok u =>
      rw [hr] at hl'
      simp only [Except.ok.injEq] at hl'
      rw [hres, hr, hfold, ← hl', hl]
      exact ⟨rfl, rfl⟩
  · rw [find_data_sets_snd]
    have h₁ : (scu.find query callback user).association =
        { (scu._association.next_message_id.2.send_message (request scu query)
            scu._affected_sop_class) with
          inbox := (scu.find query callback user).run.inbox,
          receive_calls := (scu.find query callback user).run.receive_calls } := rfl
    have h₂ : (scu.find query record []).association =
        { (scu._association.next_message_id.2.send_message (request scu query)
            scu._affected_sop_class) with
          inbox := (scu.find query record []).run.inbox,
          receive_calls := (scu.find query record []).run.receive_calls } := rfl
    rw [h₁, h₂, hinb, hcalls]
  · intro final post hinbox hm hfinal
    exact hstream [] final post hinbox (fun r hr => by cases hr) hm hfinal

/-- Witness for C11: two Pending responses then Success give the two data sets, in
order. -/
theorem find_without_callback_refines_callback_variant_witness :
    (find_data_sets (Sample.scu [Sample.pending_1, Sample.pending_2, Sample.success])
      Sample.query).1 = .ok [Sample.match_1, Sample.match_2] ∧
    (find_data_sets (Sample.scu [Sample.failure, Sample.pending_2]) Sample.query).1
      = .ok [] :=
  ⟨(find_without_callback_refines_callback_variant
      (Sample.scu [Sample.pending_1, Sample.pending_2, Sample.success]) Sample.query
      record []).2.2.2.2.1
      [Sample.pending_1, Sample.pending_2] Sample.success [] rfl (by decide) (by decide) rfl,
   (find_without_callback_refines_callback_variant
      (Sample.scu [Sample.failure, Sample.pending_2]) Sample.query
      record []).2.2.2.2.2 Sample.failure [Sample.pending_2] rfl (by decide) rfl⟩

/-- C12: in every generator reachable from the constructor by calls of the initialisation
method, `get()` and `next()` in any order (failed calls included, initialisation possibly
repeated), the state Pending implies that the iterator designates an element of
`_responses` (its index is below the number of responses), so that the dereference made by
`get()` in state Pending is defined: `get()` returns a response. -/
theorem generator_pending_iterator_designates_element
    (last : Option (CFindRequest Identifier)) (g : FindGenerator)
    (h : Reachable last g) (hs : g._state = State.Pending) :
    g._response_iterator < g._responses.length ∧
    (∃ data_set, g._responses[g._response_iterator]? = some data_set) ∧
    (∃ response, (FindGenerator.get g).1 = .returned response) := by
  obtain ⟨hreq, hset, hcur⟩ := reachable_invariant last g h
  have hlt := hcur hs
  obtain ⟨request, hl⟩ := hset (by rw [hs]; decide)
  refine ⟨hlt, ⟨_, List.getElem?_eq_getElem hlt⟩, ?_⟩
  refine ⟨⟨request.message_id, Response.Pending, none,
    some g._responses[g._response_iterator]⟩, ?_⟩
  unfold FindGenerator.get
  rw [hs, hreq, hl]
  simp only [List.getElem?_eq_getElem hlt]

/-- Witness for C12: a generator initialised, advanced twice (to Final), given a failing
call in between, and initialised again: it is Pending with four responses and the
iterator on the first. -/
theorem generator_pending_iterator_designates_element_witness :
    ( FindGenerator.initialize (fun _ => VR.UNKNOWN)
      (next (next ( FindGenerator.initialize (fun _ => VR.UNKNOWN) create
        Sample.request)).2).2 Sample.request)._responses.length = 4 ∧
    ( FindGenerator.initialize (fun _ => VR.UNKNOWN)
      (next (next ( FindGenerator.initialize (fun _ => VR.UNKNOWN) create
        Sample.request)).2).2 Sample.request)._response_iterator < 4 :=
  ⟨rfl,
   (generator_pending_iterator_designates_element (some Sample.request)
      ( FindGenerator.initialize (fun _ => VR.UNKNOWN)
        (next (next ( FindGenerator.initialize (fun _ => VR.UNKNOWN) create
          Sample.request)).2).2 Sample.request)
      (Reachable.init _ (some Sample.request) _ Sample.request
        (Reachable.next _ _ (Reachable.next _ _
          (Reachable.init _ none create Sample.request Reachable.create))))
      rfl).1⟩

/-! ## The Python iterator over `Value::Strings` -/

namespace wrappers

/-- The state after a `__next__` call does not depend on the element read. -/
theorem next_snd (v : List String) (s : state) :
    (__next__ v s).2 =
      if (if !s.first_or_done then s.it + 1 else s.it) = s.end_ then
        ⟨if !s.first_or_done then s.it + 1 else s.it, s.end_, true⟩
      else ⟨if !s.first_or_done then s.it + 1 else s.it, s.end_, false⟩ := by
  unfold __next__
  cases hf : s.first_or_done <;> simp only [Bool.not_true, Bool.not_false, if_true,
    Bool.false_eq_true, if_false]
  · split
    · rfl
    · split <;> simp_all
  · split
    · rfl
    · split <;> rfl

/-- The iterator state after `k` calls: before the first call it is at the start with the
flag set; after call `k` with `1 ≤ k ≤ n` it designates element `k - 1` with the flag
cleared; after any later call it is at the end with the flag set. -/
theorem after_eq (v : List String) (k : Nat) :
    after v k =
      if k = 0 then ⟨0, v.length, true⟩
      else if k ≤ v.length then ⟨k - 1, v.length, false⟩
      else ⟨v.length, v.length, true⟩ := by
  induction k with
  | zero => rfl
  | succ k ih =>
    rw [after, next_snd, ih]
    generalize v.length = n
    rcases k with _ | j
    · by_cases hn : 0 = n
      · subst hn; rfl
      · have h1 : 0 + 1 ≤ n := by omega
        rw [if_pos rfl, if_neg (Nat.succ_ne_zero 0), if_pos h1]
        simp only [Bool.not_true, Bool.false_eq_true, if_false]
        rw [if_neg hn]
    · rw [if_neg (Nat.succ_ne_zero j), if_neg (Nat.succ_ne_zero (j + 1))]
      by_cases hle : j + 1 ≤ n
      · rw [if_pos hle]
        simp only [Bool.not_false, if_true, Nat.add_sub_cancel]
        by_cases heq : j + 1 = n
        · have h1 : ¬ (j + 1 + 1 ≤ n) := by omega
          rw [if_pos heq, if_neg h1, heq]
        · have h1 : j + 1 + 1 ≤ n := by omega
          rw [if_neg heq, if_pos h1]
      · have h1 : ¬ (j + 1 + 1 ≤ n) := by omega
        rw [if_neg hle, if_neg h1]
        simp only [Bool.not_true, Bool.false_eq_true, if_false, if_true]

/-- One `__next__` call from a state whose iterator, once moved, designates the element
`x` of the vector: it returns `x`. -/
theorem next_fst_of_index (v : List String) (s : state) (x : String)
    (hend : s.end_ = v.length)
    (hx : v[if !s.first_or_done then s.it + 1 else s.it]? = some x) :
    (__next__ v s).1 = Next.returned ⟨x⟩ := by
  obtain ⟨hlt, -⟩ := List.getElem?_eq_some.1 hx
  have hne : ¬ ((if !s.first_or_done then s.it + 1 else s.it) = s.end_) := by
    rw [hend]; omega
  unfold __next__
  cases hf : s.first_or_done
  · rw [hf] at hne hx
    simp only [Bool.not_false, if_true] at hne hx ⊢
    rw [if_neg hne, hx]
  · rw [hf] at hne hx
    simp only [Bool.not_true, Bool.false_eq_true, if_false] at hne hx ⊢
    rw [if_neg hne, hx]

/-- One `__next__` call from a state whose iterator, once moved, is at the end: it raises
StopIteration. -/
theorem next_fst_of_end (v : List String) (s : state)
    (hend : (if !s.first_or_done then s.it + 1 else s.it) = s.end_) :
    (__next__ v s).1 = Next.stop_iteration := by
  unfold __next__
  cases hf : s.first_or_done
  · rw [hf] at hend
    simp only [Bool.not_false, if_true] at hend ⊢
    rw [if_pos hend]
  · rw [hf] at hend
    simp only [Bool.not_true, Bool.false_eq_true, if_false] at hend ⊢
    rw [if_pos hend]

/-- Call number `k + 1` on a vector with an element at index `k` returns it. -/
theorem call_of_index (v : List String) (k : Nat) (x : String) (hx : v[k]? = some x) :
    call v k = Next.returned ⟨x⟩ := by
  obtain ⟨hlt, -⟩ := List.getElem?_eq_some.1 hx
  unfold call
  apply next_fst_of_index
  · rw [after_eq]; split
    · rfl
    · split <;> rfl
  · rw [after_eq]
    rcases k with _ | j
    · exact hx
    · have hle : j + 1 ≤ v.length := by omega
      rw [if_neg (Nat.succ_ne_zero j), if_pos hle]
      exact hx

/-- Call number `k + 1` with `k` at least the length of the vector raises StopIteration. -/
theorem call_of_length_le (v : List String) (k : Nat) (hk : v.length ≤ k) :
    call v k = Next.stop_iteration := by
  unfold call
  apply next_fst_of_end
  rw [after_eq]
  rcases k with _ | j
  · have hn : v.length = 0 := by omega
    rw [if_pos rfl, hn]; rfl
  · rw [if_neg (Nat.succ_ne_zero j)]
    by_cases heq : j + 1 = v.length
    · have hle : j + 1 ≤ v.length := by omega
      rw [if_pos hle]
      simp only [Bool.not_false, if_true, Nat.add_sub_cancel]
      exact heq
    · have hle : ¬ (j + 1 ≤ v.length) := by omega
      rw [if_neg hle]
      rfl

end wrappers

open wrappers

/-- C13: for every vector `v` of strings, of length `n`, and the Python iterator created
by `Strings.__iter__` on it: call number `k + 1` of `__next__` returns the bytes of `v[k]`
when `k < n`, so that the first `n` calls return `v[0]`, ..., `v[n-1]` in order; every
call from number `n + 1` on raises StopIteration; and after any number of calls the
underlying iterator is at most at the end of `v`, the end iterator being unchanged. -/
theorem strings_iterator_yields_elements_then_stops (v : List String) (k : Nat) :
    (∀ x, v[k]? = some x → call v k = Next.returned ⟨x⟩) ∧
    (v.length ≤ k → call v k = Next.stop_iteration) ∧
    (after v k).it ≤ v.length ∧
    (after v k).end_ = v.length ∧
    (List.range v.length).map (call v) = v.map (fun x => Next.returned ⟨x⟩) := by
  refine ⟨fun x hx => call_of_index v k x hx, call_of_length_le v k, ?_, ?_, ?_⟩
  · rw [after_eq]
    split
    · exact Nat.zero_le _
    · split
      · simp only []; omega
      · exact Nat.le_refl _
  · rw [after_eq]
    split
    · rfl
    · split <;> rfl
  · apply List.ext_getElem
    · simp
    · intro i h₁ h₂
      have hi : i < v.length := by simpa using h₁
      simp only [List.getElem_map, List.getElem_range]
      exact call_of_index v i v[i] (List.getElem?_eq_getElem hi)

/-- Witness for C13: on a vector of two strings the first two calls return them in order,
the third and the fourth raise StopIteration, and the iterator stays at the end. -/
theorem strings_iterator_yields_elements_then_stops_witness :
    call ["Hello^World", "Doe^John"] 0 = Next.returned ⟨"Hello^World"⟩ ∧
    call ["Hello^World", "Doe^John"] 1 = Next.returned ⟨"Doe^John"⟩ ∧
    call ["Hello^World", "Doe^John"] 2 = Next.stop_iteration ∧
    call ["Hello^World", "Doe^John"] 3 = Next.stop_iteration ∧
    (after ["Hello^World", "Doe^John"] 4).it ≤ 2 ∧
    call [] 0 = Next.stop_iteration :=
  ⟨(strings_iterator_yields_elements_then_stops ["Hello^World", "Doe^John"] 0).1 _ rfl,
   (strings_iterator_yields_elements_then_stops ["Hello^World", "Doe^John"] 1).1 _ rfl,
   (strings_iterator_yields_elements_then_stops ["Hello^World", "Doe^John"] 2).2.1
     (by decide),
   (strings_iterator_yields_elements_then_stops ["Hello^World", "Doe^John"] 3).2.1
     (by decide),
   (strings_iterator_yields_elements_then_stops ["Hello^World", "Doe^John"] 4).2.2.1,
   (strings_iterator_yields_elements_then_stops [] 0).2.1 (by decide)⟩
